import Mathlib

/-!
# Workflow scheduling orchestrator (k8s/cmd/commands/schedule/schedule_workflow.go)

A shallow embedding of `SchedulingWorkflow` and of the library helpers it calls
(`unstructured.Nested*`, `unstructured.SetNestedStringMap`, `strconv.Atoi`),
followed by theorems about the readiness predicate, the injection of the
scheduling label and annotation, and the chaining of owner references.
-/

set_option autoImplicit false

namespace V6d

/-! ## Dynamic values and Go maps -/

/-- Dynamic values stored in `unstructured.Unstructured.Object`: the Go types a
decoded manifest can hold (`nil`, `bool`, `int64`, `float64`, `string`,
`[]interface{}`, `map[string]interface{}`). A `float64` is kept as its IEEE-754
bit pattern; a map is kept as a key/value list read from the front. -/
inductive Value where
  | null
  | bool (b : Bool)
  | int64 (i : Int)
  | float64 (bits : Nat)
  | string (s : String)
  | slice (vs : List Value)
  | map (m : List (String × Value))

/-- The Go type `map[string]interface{}` (a non-nil map). -/
abbrev Obj := List (String × Value)

/-- The Go type `map[string]string` (a non-nil map). -/
abbrev StrMap := List (String × String)

/-- Go `v, ok := m[k]`. -/
def mapGet {α : Type} (k : String) : List (String × α) → Option α
  | [] => none
  | (k', v) :: m => if k' = k then some v else mapGet k m

/-- Go `m[k] = v` on a non-nil map. -/
def mapSet {α : Type} (k : String) (v : α) : List (String × α) → List (String × α)
  | [] => [(k, v)]
  | (k', v') :: m => if k' = k then (k, v) :: m else (k', v') :: mapSet k v m

/-- Go `m[k]` on a `map[string]string` that may be nil: the zero value `""`
when the map is nil or the key is absent. -/
def strIndex (m : Option StrMap) (k : String) : String :=
  match m with
  | none => ""
  | some m => (mapGet k m).getD ""

/-- Go `m[k]` on a `map[string]interface{}`: the nil interface when the key is
absent. -/
def ifaceIndex (m : Obj) (k : String) : Value :=
  (mapGet k m).getD Value.null

/-! ## Errors -/

/-- The underlying error of a failure, before `errors.Wrap` adds context. -/
inductive Cause where
  /-- An accessor error of `unstructured`: the JSON path read and the Go type
  that was expected there. -/
  | accessor (path : List String) (expected : String)
  /-- The error of `setNestedFieldNoCopy`: the path that is not a map. -/
  | notSettable (path : List String)
  /-- A `strconv.NumError` with `Err = ErrSyntax`. -/
  | numSyntax (fn : String) (num : String)
  /-- A `strconv.NumError` with `Err = ErrRange`. -/
  | numRange (fn : String) (num : String)
  /-- An error returned by the cluster client, the scheduler or `util.Create`. -/
  | external (msg : String)
  deriving DecidableEq, Repr

/-- An error built by `errors.Wrap(cause, context)`. -/
structure GoError where
  context : String
  cause : Cause
  deriving DecidableEq, Repr

/-- The Go expression `errors.Wrap(err, msg)`. -/
def wrap (err : Cause) (msg : String) : GoError :=
  { context := msg, cause := err }

/-! ## `k8s.io/apimachinery/pkg/apis/meta/v1/unstructured` helpers -/

/-- The three results `(value, found, err)` an `unstructured.Nested*` accessor
can give: `(v, true, nil)`, `(zero, false, nil)` and `(zero, false, err)`. -/
inductive Nested (α : Type) where
  | found (v : α)
  | absent
  | failed (e : Cause)

/-- The Go pattern `v, _, err := unstructured.NestedX(...)`: the found flag is
dropped, an absent field gives the zero value and no error. -/
def Nested.dropFound {α : Type} (zero : α) : Nested α → Except Cause α
  | .found v => .ok v
  | .absent => .ok zero
  | .failed e => .error e

/-- The loop of `unstructured.NestedFieldNoCopy`: `seen` holds the fields
already traversed (for the path of the error), `val` the current value. -/
def nestedFieldLoop (seen : List String) (val : Value) : List String → Nested Value
  | [] => .found val
  | field :: rest =>
    match val with
    | .null => .absent
    | .map m =>
      match mapGet field m with
      | none => .absent
      | some v => nestedFieldLoop (seen ++ [field]) v rest
    | _ => .failed (.accessor (seen ++ [field]) "map[string]interface\x7b\x7d")

/-- The library function `unstructured.NestedFieldNoCopy(obj, fields...)`. -/
def NestedFieldNoCopy (obj : Obj) (fields : List String) : Nested Value :=
  nestedFieldLoop [] (.map obj) fields

/-- The library function `unstructured.NestedString(obj, fields...)`. -/
def NestedString (obj : Obj) (fields : List String) : Nested String :=
  match NestedFieldNoCopy obj fields with
  | .absent => .absent
  | .failed e => .failed e
  | .found (.string s) => .found s
  | .found _ => .failed (.accessor fields "string")

/-- The library function `unstructured.NestedInt64(obj, fields...)`. -/
def NestedInt64 (obj : Obj) (fields : List String) : Nested Int :=
  match NestedFieldNoCopy obj fields with
  | .absent => .absent
  | .failed e => .failed e
  | .found (.int64 i) => .found i
  | .found _ => .failed (.accessor fields "int64")

/-- The unexported helper `nestedMapNoCopy(obj, fields...)`. -/
def nestedMapNoCopy (obj : Obj) (fields : List String) : Nested Obj :=
  match NestedFieldNoCopy obj fields with
  | .absent => .absent
  | .failed e => .failed e
  | .found (.map m) => .found m
  | .found _ => .failed (.accessor fields "map[string]interface\x7b\x7d")

/-- The library function `unstructured.NestedMap(obj, fields...)`; the deep
copy it returns is the same value. -/
def NestedMap (obj : Obj) (fields : List String) : Nested Obj :=
  nestedMapNoCopy obj fields

/-- The conversion loop of `unstructured.NestedStringMap`: every value has to
be a string. -/
def toStrMap : Obj → Option StrMap
  | [] => some []
  | (k, .string s) :: m => (toStrMap m).map (fun r => (k, s) :: r)
  | _ :: _ => none

/-- The library function `unstructured.NestedStringMap(obj, fields...)`. -/
def NestedStringMap (obj : Obj) (fields : List String) : Nested StrMap :=
  match nestedMapNoCopy obj fields with
  | .absent => .absent
  | .failed e => .failed e
  | .found m =>
    match toStrMap m with
    | some sm => .found sm
    | none => .failed (.accessor fields "string")

/-- The Go pattern `m, _, err := unstructured.NestedStringMap(...)`: the map is
nil (`none`) when the field is absent. -/
def stringMapOrNil (obj : Obj) (fields : List String) : Except Cause (Option StrMap) :=
  match NestedStringMap obj fields with
  | .found m => .ok (some m)
  | .absent => .ok none
  | .failed e => .error e

/-- The loop of `setNestedFieldNoCopy`: walks (and creates) the maps of all
fields but the last, then stores the value under the last field. -/
def setNestedLoop (seen : List String) (value : Value) (m : Obj) :
    List String → Except Cause Obj
  | [] => .ok m
  | [last] => .ok (mapSet last value m)
  | field :: rest =>
    match mapGet field m with
    | some (.map valMap) =>
      match setNestedLoop (seen ++ [field]) value valMap rest with
      | .ok valMap' => .ok (mapSet field (.map valMap') m)
      | .error e => .error e
    | some _ => .error (.notSettable (seen ++ [field]))
    | none =>
      match setNestedLoop (seen ++ [field]) value [] rest with
      | .ok newVal => .ok (mapSet field (.map newVal) m)
      | .error e => .error e

/-- The library function `unstructured.SetNestedStringMap(obj, value,
fields...)`: the string map is converted to `map[string]interface{}` and
stored at the path. -/
def SetNestedStringMap (obj : Obj) (value : StrMap) (fields : List String) :
    Except Cause Obj :=
  setNestedLoop [] (.map (value.map (fun kv => (kv.1, Value.string kv.2)))) obj fields

/-! ## Go expressions that can panic, interface equality -/

/-- A Go expression that either yields a value or raises a run-time panic. -/
inductive Eval (α : Type) where
  | val (a : α)
  | panic (msg : String)
  deriving DecidableEq, Repr

/-- The Go operator `==` on two `float64` values given by their bit patterns:
a NaN equals nothing, the two zeros are equal, otherwise the bits decide. -/
def float64Eq (x y : Nat) : Bool :=
  let isNaN := fun (b : Nat) => (b / 2 ^ 52) % 2 ^ 11 == 2047 && b % 2 ^ 52 != 0
  if isNaN x || isNaN y then false
  else if x % 2 ^ 63 == 0 && y % 2 ^ 63 == 0 then true
  else x == y

/-- The Go operator `==` on two `interface{}` values: false when the dynamic
types differ, the comparison of the values when they agree, and a run-time
panic when both hold a slice or both hold a map (uncomparable types). -/
def ifaceEq : Value → Value → Eval Bool
  | .null, .null => .val true
  | .bool a, .bool b => .val (a == b)
  | .int64 a, .int64 b => .val (decide (a = b))
  | .float64 a, .float64 b => .val (float64Eq a b)
  | .string a, .string b => .val (decide (a = b))
  | .slice _, .slice _ => .panic "runtime error: comparing uncomparable type []interface \x7b\x7d"
  | .map _, .map _ =>
    .panic "runtime error: comparing uncomparable type map[string]interface \x7b\x7d"
  | _, _ => .val false

/-- The Go operator `!=` on two `interface{}` values. -/
def ifaceNe (x y : Value) : Eval Bool :=
  match ifaceEq x y with
  | .val b => .val (!b)
  | .panic msg => .panic msg

/-! ## `strconv.Atoi` -/

/-- The digit loop of `strconv.ParseUint(s, 10, 64)`: a byte that is not a
decimal digit is a syntax error (`false`), a value that leaves `uint64` is a
range error (`true`). -/
def parseUintLoop (n : Nat) : List Char → Except Bool Nat
  | [] => .ok n
  | c :: cs =>
    if c.isDigit then
      if n ≥ (2 ^ 64 - 1) / 10 + 1 then .error true
      else
        let n1 := n * 10 + (c.toNat - 48)
        if n1 > 2 ^ 64 - 1 then .error true else parseUintLoop n1 cs
    else .error false

/-- The library function `strconv.ParseUint(s, 10, 64)` on the characters of
`s`. -/
def parseUint (s : List Char) : Except Bool Nat :=
  match s with
  | [] => .error false
  | _ => parseUintLoop 0 s

/-- The library function `strconv.Atoi(s)` on a 64-bit platform, through
`ParseInt(s, 10, 0)`; the fast path Atoi takes for short strings computes the
same result. -/
def Atoi (s : String) : Except Cause Int :=
  match s.toList with
  | [] => .error (.numSyntax "Atoi" s)
  | c :: cs =>
    let neg := decide (c = '-')
    let digits := if c = '+' ∨ c = '-' then cs else c :: cs
    match parseUint digits with
    | .error false => .error (.numSyntax "Atoi" s)
    | .error true => .error (.numRange "Atoi" s)
    | .ok un =>
      if !neg && decide (un ≥ 2 ^ 63) then .error (.numRange "Atoi" s)
      else if neg && decide (un > 2 ^ 63) then .error (.numRange "Atoi" s)
      else .ok (if neg then -(un : Int) else (un : Int))

/-! ## The readiness predicate (lines 175-198) -/

/-- The package variable `jobKind`. -/
def jobKind : String := "Job"

/-- The closure `func(obj *unstructured.Unstructured) bool` that
`SchedulingWorkflow` hands to `util.Create`; `kind` and `parallelism` are the
captured variables. A status that is absent is the nil map, which reads like
the empty one. -/
def readinessPredicate (kind : String) (parallelism : Int) (obj : Obj) : Eval Bool :=
  match (NestedMap obj ["status"]).dropFound [] with
  | .error _ => .val false
  | .ok status =>
    if kind = "Deployment" then
      ifaceEq (ifaceIndex status "availableReplicas") (ifaceIndex status "replicas")
    else if kind = "StatefulSet" then
      ifaceEq (ifaceIndex status "readyReplicas") (ifaceIndex status "replicas")
    else if kind = "DaemonSet" then
      ifaceEq (ifaceIndex status "numberReady") (ifaceIndex status "desiredNumberScheduled")
    else if kind = "ReplicaSet" then
      ifaceEq (ifaceIndex status "availableReplicas") (ifaceIndex status "replicas")
    else if kind = "Job" then
      match ifaceIndex status "succeeded" with
      | .null => .val false
      | .int64 succeeded => .val (decide (succeeded = parallelism))
      | _ => .panic "interface conversion: interface \x7b\x7d is not int64"
    else if kind = "CronJob" then
      ifaceNe (ifaceIndex status "lastScheduleTime") (.string "")
    else .val true

/-- Lines 167-174: the parallelism the closure captures, read from
`spec.parallelism` for a Job and left at zero for every other kind. -/
def readParallelism (kind : String) (obj : Obj) : Except Cause Int :=
  if kind = jobKind then (NestedInt64 obj ["spec", "parallelism"]).dropFound 0
  else .ok 0

/-! ## The collaborators of `SchedulingWorkflow` -/

/-- The four fields of `metav1.OwnerReference` that line 215 sets; the two
pointer fields stay nil. -/
structure OwnerReference where
  APIVersion : String
  Kind : String
  Name : String
  UID : String
  deriving DecidableEq, Repr

/-- The arguments of `schedulers.NewVineyardSchedulerOutsideCluster` besides the
client: annotations, labels (both may be the nil map), namespace and owner
references. -/
structure SchedulerArgs where
  annotations : Option StrMap
  labels : Option StrMap
  nspace : String
  ownerReferences : List OwnerReference
  deriving DecidableEq, Repr

/-- The reply of `client.Create` and `client.Get`: the cluster afterwards, the
object as the call left it, and the error if any. -/
structure ClientReply (σ : Type) where
  cluster : σ
  obj : Obj
  err : Option Cause

/-- The reply of `scheduler.SetupConfig`. -/
structure SetupReply (σ : Type) where
  cluster : σ
  err : Option Cause

/-- The reply of `scheduler.Schedule`: the scheduling token or the error. -/
structure ScheduleReply (σ : Type) where
  cluster : σ
  result : Except Cause String

/-- The reply of `util.Create`: the cluster and the object as the call left
them, and the returned error (`none` for nil) unless the call panicked. -/
structure WaitReply (σ : Type) where
  cluster : σ
  obj : Obj
  outcome : Eval (Option Cause)

/-- Everything `SchedulingWorkflow` uses and the file does not define: the
label keys of package `labels`, the classifier `ValidateWorkloadKind`, the
cluster client, the scheduler of package `schedulers` and `util.Create`.
`σ` is the state of the cluster the collaborators act on. The scheduler reads
the label and annotation maps it is constructed with and does not write to
them. -/
structure Env (σ : Type) where
  /-- The constant `labels.WorkloadReplicas`. -/
  WorkloadReplicas : String
  /-- The constant `labels.SchedulingEnabledLabel`. -/
  SchedulingEnabledLabel : String
  /-- The classifier `ValidateWorkloadKind(kind)`. -/
  ValidateWorkloadKind : String → Bool
  /-- The client call `c.Create(ctx, obj)`. -/
  clientCreate : σ → Obj → ClientReply σ
  /-- The client call `c.Get(ctx, NamespacedName{Name, Namespace}, obj)`. -/
  clientGet : σ → (name : String) → (nspace : String) → Obj → ClientReply σ
  /-- The scheduler call `scheduler.SetupConfig()`. -/
  setupConfig : σ → SchedulerArgs → SetupReply σ
  /-- The scheduler call `scheduler.Schedule(replicas)`. -/
  schedule : σ → SchedulerArgs → Int → ScheduleReply σ
  /-- The helper `util.Create(c, obj, until)`. -/
  utilCreate : σ → Obj → (Obj → Eval Bool) → WaitReply σ

/-- A call `SchedulingWorkflow` makes to one of its collaborators, with its
arguments; for `util.Create` these are the object and the readiness predicate
handed over. -/
inductive Event where
  | clientCreate (obj : Obj)
  | newScheduler (args : SchedulerArgs)
  | setupConfig
  | schedule (replicas : Int)
  | utilCreate (obj : Obj) (ready : Obj → Eval Bool)
  | clientGet (name : String) (nspace : String)

/-- The state a call of `SchedulingWorkflow` acts on: the package variable
`ownerReferences` (line 47) and the cluster. -/
structure State (σ : Type) where
  ownerReferences : List OwnerReference
  cluster : σ

/-- The state once a collaborator has acted on the cluster. -/
def State.withCluster {σ : Type} (st : State σ) (cluster : σ) : State σ :=
  { st with cluster := cluster }

/-- How a call of `SchedulingWorkflow` ends: it returns nil, it returns an
error, it panics, or `log.Fatalf` ends the process. -/
inductive Outcome where
  | success
  | error (e : GoError)
  | panic (msg : String)
  | fatal (msg : String)
  deriving DecidableEq, Repr

/-- The result of a call: how it ended, the state it left, the object behind
the pointer `obj` afterwards, and the calls it made to its collaborators, in
order. -/
structure Result (σ : Type) where
  outcome : Outcome
  state : State σ
  obj : Obj
  calls : List Event

/-- A result reached after the calls `before` had already been made. -/
def Result.after {σ : Type} (before : List Event) (r : Result σ) : Result σ :=
  { r with calls := before ++ r.calls }

/-! ## `SchedulingWorkflow` -/

/-- The path of the pod template labels. -/
def labelsPath : List String := ["spec", "template", "metadata", "labels"]

/-- The path of the pod template annotations. -/
def annotationsPath : List String := ["spec", "template", "metadata", "annotations"]

/-- Lines 202-223 of `SchedulingWorkflow`: the object is fetched again and its
identity becomes the only owner reference. -/
def chainOwner {σ : Type} (env : Env σ) (st : State σ) (obj : Obj)
    (name nspace kind : String) : Result σ :=
  let got := env.clientGet st.cluster name nspace obj
  let st := st.withCluster got.cluster
  let calls := [Event.clientGet name nspace]
  match got.err with
  | some err => ⟨.error (wrap err "failed to get workload"), st, got.obj, calls⟩
  | none =>
  match (NestedString got.obj ["apiVersion"]).dropFound "" with
  | .error err => ⟨.error (wrap err "failed to get apiVersion"), st, got.obj, calls⟩
  | .ok version =>
  match (NestedString got.obj ["metadata", "uid"]).dropFound "" with
  | .error err => ⟨.error (wrap err "failed to get uid"), st, got.obj, calls⟩
  | .ok uid =>
  ⟨.success,
    { st with ownerReferences :=
        [{ APIVersion := version, Kind := kind, Name := name, UID := uid }] },
    got.obj, calls⟩

/-- Lines 156-200 of `SchedulingWorkflow`: the label and the annotation are
written into the object, the parallelism of a Job is read, and the object is
created and awaited through `util.Create`. -/
def injectAndCreate {σ : Type} (env : Env σ) (st : State σ) (obj : Obj)
    (l a : Option StrMap) (name nspace kind result : String) : Result σ :=
  match l with
  | none => ⟨.panic "assignment to entry in nil map", st, obj, []⟩
  | some l =>
  let l := mapSet env.SchedulingEnabledLabel "true" l
  match SetNestedStringMap obj l labelsPath with
  | .error err => ⟨.error (wrap err "failed to set labels"), st, obj, []⟩
  | .ok obj =>
  match a with
  | none => ⟨.panic "assignment to entry in nil map", st, obj, []⟩
  | some a =>
  let a := mapSet "scheduledOrder" result a
  match SetNestedStringMap obj a annotationsPath with
  | .error err => ⟨.error (wrap err "failed to set annotations"), st, obj, []⟩
  | .ok obj =>
  match readParallelism kind obj with
  | .error err => ⟨.error (wrap err "failed to get completions of job"), st, obj, []⟩
  | .ok parallelism =>
  let ready := readinessPredicate kind parallelism
  let made := env.utilCreate st.cluster obj ready
  let st := st.withCluster made.cluster
  match made.outcome with
  | .panic msg => ⟨.panic msg, st, made.obj, [.utilCreate obj ready]⟩
  | .val (some _) =>
    ⟨.fatal ("failed to wait the workload " ++ nspace ++ "/" ++ name), st, made.obj,
      [.utilCreate obj ready]⟩
  | .val none =>
    (chainOwner env st made.obj name nspace kind).after [.utilCreate obj ready]

/-- Lines 136-154 of `SchedulingWorkflow`: the replica count is parsed from the
label, the scheduler is constructed with the current owner references, set up
and asked to schedule. -/
def scheduleWorkload {σ : Type} (env : Env σ) (st : State σ) (obj : Obj)
    (l a : Option StrMap) (name nspace kind : String) : Result σ :=
  let r := strIndex l env.WorkloadReplicas
  match Atoi r with
  | .error err => ⟨.error (wrap err "failed to get replicas"), st, obj, []⟩
  | .ok replicas =>
  let scheduler : SchedulerArgs :=
    { annotations := a, labels := l, nspace := nspace,
      ownerReferences := st.ownerReferences }
  let setup := env.setupConfig st.cluster scheduler
  let st := st.withCluster setup.cluster
  match setup.err with
  | some err =>
    ⟨.error (wrap err "failed to setup scheduler config"), st, obj,
      [.newScheduler scheduler, .setupConfig]⟩
  | none =>
  let sched := env.schedule st.cluster scheduler replicas
  let st := st.withCluster sched.cluster
  match sched.result with
  | .error err =>
    ⟨.error (wrap err "failed to schedule workload"), st, obj,
      [.newScheduler scheduler, .setupConfig, .schedule replicas]⟩
  | .ok result =>
    (injectAndCreate env st obj l a name nspace kind result).after
      [.newScheduler scheduler, .setupConfig, .schedule replicas]

/-- The function `SchedulingWorkflow(c, obj)` (lines 91-224). -/
def SchedulingWorkflow {σ : Type} (env : Env σ) (st : State σ) (obj : Obj) : Result σ :=
  match stringMapOrNil obj labelsPath with
  | .error err => ⟨.error (wrap err "failed to get labels"), st, obj, []⟩
  | .ok l =>
  match stringMapOrNil obj annotationsPath with
  | .error err => ⟨.error (wrap err "failed to get annotations"), st, obj, []⟩
  | .ok a =>
  match (NestedString obj ["metadata", "name"]).dropFound "" with
  | .error err => ⟨.error (wrap err "failed to get the name of resource"), st, obj, []⟩
  | .ok name =>
  match (NestedString obj ["metadata", "namespace"]).dropFound "" with
  | .error err => ⟨.error (wrap err "failed to get the namespace of resource"), st, obj, []⟩
  | .ok nspace =>
  match (NestedString obj ["kind"]).dropFound "" with
  | .error err => ⟨.error (wrap err "failed to get the kind of resource"), st, obj, []⟩
  | .ok kind =>
  let isWorkload := env.ValidateWorkloadKind kind
  if !isWorkload then
    let made := env.clientCreate st.cluster obj
    let st := st.withCluster made.cluster
    match made.err with
    | some err =>
      ⟨.error (wrap err "failed to create non-workload resources"), st, made.obj,
        [.clientCreate obj]⟩
    | none => ⟨.success, st, made.obj, [.clientCreate obj]⟩
  else scheduleWorkload env st obj l a name nspace kind

/-! ## A run of the command and the notions the statements use -/

/-- The state in which the command starts: the package variable
`ownerReferences` holds its zero value. -/
def initialState {σ : Type} (cluster : σ) : State σ :=
  { ownerReferences := [], cluster := cluster }

/-- A sequence of calls of `SchedulingWorkflow` made by one process, one per
resource: a returned value (nil or an error) lets the caller go on, a panic or
a fatal log ends the process. -/
def callAll {σ : Type} (env : Env σ) : State σ → List Obj → State σ
  | st, [] => st
  | st, obj :: rest =>
    let r := SchedulingWorkflow env st obj
    match r.outcome with
    | .success => callAll env r.state rest
    | .error _ => callAll env r.state rest
    | _ => r.state

/-- The kind `SchedulingWorkflow` reads from a resource (line 121): the empty
string when the field is absent or unreadable. -/
def kindOf (obj : Obj) : String :=
  match NestedString obj ["kind"] with
  | .found k => k
  | _ => ""

/-- The name `SchedulingWorkflow` reads from a resource (line 111). -/
def nameOf (obj : Obj) : String :=
  match NestedString obj ["metadata", "name"] with
  | .found n => n
  | _ => ""

/-- The namespace `SchedulingWorkflow` reads from a resource (line 115). -/
def namespaceOf (obj : Obj) : String :=
  match NestedString obj ["metadata", "namespace"] with
  | .found n => n
  | _ => ""

/-- The apiVersion `SchedulingWorkflow` reads from the fetched object (line
206). -/
def apiVersionOf (obj : Obj) : String :=
  match NestedString obj ["apiVersion"] with
  | .found v => v
  | _ => ""

/-- The uid `SchedulingWorkflow` reads from the fetched object (line 211). -/
def uidOf (obj : Obj) : String :=
  match NestedString obj ["metadata", "uid"] with
  | .found u => u
  | _ => ""

/-- The identity of a resource `res` whose fetched form is `fetched`: the kind
and name of the resource, the apiVersion and uid of the fetched object. -/
def identityOf (res fetched : Obj) : OwnerReference :=
  { APIVersion := apiVersionOf fetched, Kind := kindOf res, Name := nameOf res,
    UID := uidOf fetched }

/-- The identity of the most recent workload resource whose call returned
success in a sequence of calls, `acc` being the one known before the
sequence. -/
def lastSuccessfulWorkload {σ : Type} (env : Env σ) :
    State σ → List Obj → Option OwnerReference → Option OwnerReference
  | _, [], acc => acc
  | st, obj :: rest, acc =>
    let r := SchedulingWorkflow env st obj
    match r.outcome with
    | .success =>
      if env.ValidateWorkloadKind (kindOf obj) then
        lastSuccessfulWorkload env r.state rest (some (identityOf obj r.obj))
      else lastSuccessfulWorkload env r.state rest acc
    | .error _ => lastSuccessfulWorkload env r.state rest acc
    | _ => acc

/-- The five reads that open `SchedulingWorkflow` (lines 93-124) all succeed,
with these results. -/
def metadataReads (obj : Obj) (l a : Option StrMap) (name nspace kind : String) : Prop :=
  stringMapOrNil obj labelsPath = .ok l ∧
  stringMapOrNil obj annotationsPath = .ok a ∧
  (NestedString obj ["metadata", "name"]).dropFound "" = .ok name ∧
  (NestedString obj ["metadata", "namespace"]).dropFound "" = .ok nspace ∧
  (NestedString obj ["kind"]).dropFound "" = .ok kind

/-- A decimal integer as a string: an optional sign followed by one or more
decimal digits. -/
def isDecimalInteger (s : String) : Bool :=
  match s.toList with
  | [] => false
  | c :: cs =>
    let digits := if c = '+' ∨ c = '-' then cs else c :: cs
    !digits.isEmpty && digits.all Char.isDigit

/-- The value of a pod template label of a resource, when the label is there
and is a string. -/
def templateLabel (obj : Obj) (key : String) : Option String :=
  match NestedFieldNoCopy obj (labelsPath ++ [key]) with
  | .found (.string s) => some s
  | _ => none

/-- The replica counts passed to `scheduler.Schedule` in a list of calls. -/
def scheduledReplicas : List Event → List Int
  | [] => []
  | .schedule n :: es => n :: scheduledReplicas es
  | _ :: es => scheduledReplicas es

/-- The owner reference lists passed to the scheduler constructor in a list of
calls. -/
def schedulerOwners : List Event → List (List OwnerReference)
  | [] => []
  | .newScheduler args :: es => args.ownerReferences :: schedulerOwners es
  | _ :: es => schedulerOwners es

/-- Whether a call submits an object for creation (`c.Create` or
`util.Create`). -/
def Event.isCreate : Event → Bool
  | .clientCreate _ => true
  | .utilCreate _ _ => true
  | _ => false

/-! ## A small cluster to run the workflow on -/

/-- Modelled from the spec: the classifier `ValidateWorkloadKind` of package
`schedule`, which is not among the sources; the workload kinds are Deployment,
StatefulSet, DaemonSet, ReplicaSet, Job and CronJob. -/
def ValidateWorkloadKind (kind : String) : Bool :=
  ["Deployment", "StatefulSet", "DaemonSet", "ReplicaSet", "Job", "CronJob"].contains kind

/-- Modelled from the spec: the wait of `util.Create` (package `util`, not among
the sources), which re-reads the object until the predicate holds or the
timeout, here a number of polls, elapses. -/
def waitReady {σ : Type} (get : σ → String → String → Obj → ClientReply σ)
    (cond : Obj → Eval Bool) : Nat → σ → Obj → WaitReply σ
  | 0, cl, obj => ⟨cl, obj, .val (some (.external "timed out waiting for the condition"))⟩
  | polls + 1, cl, obj =>
    let got := get cl (nameOf obj) (namespaceOf obj) obj
    match got.err with
    | some _ => waitReady get cond polls got.cluster got.obj
    | none =>
      match cond got.obj with
      | .panic msg => ⟨got.cluster, got.obj, .panic msg⟩
      | .val true => ⟨got.cluster, got.obj, .val none⟩
      | .val false => waitReady get cond polls got.cluster got.obj

/-- The status the demo cluster reports for the object of a given name: the
Deployment `web` has 2 of 2 replicas available, the Job `batch` has no
succeeded pod yet, every other object has an empty status. -/
def demoStatus (name : String) : Value :=
  (mapGet name
    [("web", Value.map [("replicas", .int64 2), ("availableReplicas", .int64 2)]),
     ("batch", Value.map [("succeeded", .int64 0)])]).getD (.map [])

/-- A cluster that keeps the objects created so far and answers a read with
the object given, completed with an apiVersion, a uid and the status of
`demoStatus`. -/
def demoGet (cl : List Obj) (name _nspace : String) (obj : Obj) : ClientReply (List Obj) :=
  let obj := mapSet "status" (demoStatus name) (mapSet "apiVersion" (.string "apps/v1") obj)
  match setNestedLoop [] (.string ("uid-" ++ name)) obj ["metadata", "uid"] with
  | .ok obj => ⟨cl, obj, none⟩
  | .error e => ⟨cl, obj, some e⟩

/-- The cluster of `demoGet` as an environment: every creation is accepted,
the scheduler accepts every request and answers `"order:0,1"`, the label keys
are those of the spec. -/
def demoEnv : Env (List Obj) :=
  { WorkloadReplicas := "workload-replicas",
    SchedulingEnabledLabel := "scheduling-enabled",
    ValidateWorkloadKind := ValidateWorkloadKind,
    clientCreate := fun cl obj => ⟨cl ++ [obj], obj, none⟩,
    clientGet := demoGet,
    setupConfig := fun cl _ => ⟨cl, none⟩,
    schedule := fun cl _ _ => ⟨cl, .ok "order:0,1"⟩,
    utilCreate := fun cl obj cond => waitReady demoGet cond 3 (cl ++ [obj]) obj }

/-- A resource with the given top-level fields, metadata name and namespace. -/
def resource (kind name : String) (spec : Obj) : Obj :=
  [("apiVersion", .string "apps/v1"), ("kind", .string kind),
   ("metadata", .map [("name", .string name), ("namespace", .string "default")]),
   ("spec", .map spec)]

/-- A pod template with the given labels and annotations. -/
def template (labels annotations : Obj) : String × Value :=
  ("template", .map [("metadata", .map [("labels", .map labels),
    ("annotations", .map annotations)])])

/-- A Deployment named `web` whose replica label is `replicas`. -/
def webDeployment (replicas : String) : Obj :=
  resource "Deployment" "web"
    [template [("app", .string "web"), ("workload-replicas", .string replicas)]
      [("note", .string "keep")]]

/-- A ConfigMap, a non-workload resource. -/
def settingsConfigMap : Obj :=
  [("apiVersion", .string "v1"), ("kind", .string "ConfigMap"),
   ("metadata", .map [("name", .string "settings"), ("namespace", .string "default")]),
   ("data", .map [("mode", .string "fast")])]

/-- A fetched Deployment whose status reports `available` of `replicas`
replicas available. -/
def fetched (available replicas : Int) : Obj :=
  [("kind", .string "Deployment"),
   ("status", .map [("availableReplicas", .int64 available), ("replicas", .int64 replicas)])]

/-- A resource that has neither kind nor name nor namespace. -/
def anonymousResource : Obj :=
  [("apiVersion", .string "v1"), ("metadata", .map [("labels", .map [])]),
   ("data", .map [("mode", .string "fast")])]

/-- A Job named `batch` with one replica and no `spec.parallelism`. -/
def batchJob : Obj :=
  resource "Job" "batch"
    [template [("workload-replicas", .string "1")] [("note", .string "keep")]]

/-- The Job `batch` with a `spec.parallelism` that is a string. -/
def batchJobStringParallelism : Obj :=
  resource "Job" "batch"
    [template [("workload-replicas", .string "1")] [("note", .string "keep")],
     ("parallelism", .string "4")]

/-- A ConfigMap whose `metadata.name` is a number. -/
def numberedConfigMap : Obj :=
  [("apiVersion", .string "v1"), ("kind", .string "ConfigMap"),
   ("metadata", .map [("name", .int64 7), ("namespace", .string "default")])]

/-- A workflow of three resources: a Deployment, a ConfigMap and a Deployment
whose replica label does not parse. -/
def demoWorkflow : List Obj :=
  [webDeployment "2", settingsConfigMap, webDeployment "abc"]

/-- A Deployment named `web` whose pod template has labels, among them the
replica label `"2"`, and no annotations map. -/
def bareDeployment : Obj :=
  resource "Deployment" "web"
    [("template", .map [("metadata", .map [("labels",
      .map [("app", .string "web"), ("workload-replicas", .string "2")])])])]

/-- The Job `batch` with `spec.parallelism` 4. -/
def batchJobParallelism4 : Obj :=
  resource "Job" "batch"
    [template [("workload-replicas", .string "1")] [("note", .string "keep")],
     ("parallelism", .int64 4)]

/-- The replica-counting kinds with the two status fields each compares
(lines 181-188). -/
def replicaCountFields : List (String × String × String) :=
  [("Deployment", "availableReplicas", "replicas"),
   ("StatefulSet", "readyReplicas", "replicas"),
   ("DaemonSet", "numberReady", "desiredNumberScheduled"),
   ("ReplicaSet", "availableReplicas", "replicas")]

/-- A status field that holds no value: it is absent or it is null. -/
def holdsNoValue (status : Obj) (field : String) : Prop :=
  mapGet field status = none ∨ mapGet field status = some Value.null

/-- A status field that holds a value other than null. -/
def holdsValue (status : Obj) (field : String) : Prop :=
  ∃ v, mapGet field status = some v ∧ v ≠ Value.null

/-! ## Lemmas on maps and accessors -/

theorem mapGet_mapSet {α : Type} (k k' : String) (v : α) (m : List (String × α)) :
    mapGet k' (mapSet k v m) = if k' = k then some v else mapGet k' m := by
  induction m with
  | nil =>
    by_cases h : k' = k
    · simp [mapSet, mapGet, h]
    · have h' : ¬ k = k' := fun e => h e.symm
      simp [mapSet, mapGet, h, h']
  | cons kv m ih =>
    obtain ⟨k0, v0⟩ := kv
    by_cases h0 : k0 = k
    · subst h0
      by_cases h : k' = k0
      · simp [mapSet, mapGet, h]
      · have h' : ¬ k0 = k' := fun e => h e.symm
        simp [mapSet, mapGet, h, h']
    · by_cases h : k0 = k'
      · have hk : ¬ k' = k := fun e => h0 (h.trans e)
        simp [mapSet, mapGet, h0, h, hk]
      · simp [mapSet, mapGet, h0, h, ih]

theorem toStrMap_mapGet (m : Obj) (sm : StrMap) (h : toStrMap m = some sm) (k : String) :
    mapGet k m = (mapGet k sm).map Value.string := by
  induction m generalizing sm with
  | nil =>
    simp [toStrMap] at h
    subst h
    simp [mapGet]
  | cons kv m ih =>
    obtain ⟨k0, v0⟩ := kv
    cases v0 <;> simp [toStrMap] at h
    obtain ⟨r, hr, rfl⟩ := h
    by_cases hk : k0 = k
    · simp [mapGet, hk]
    · simp [mapGet, hk, ih r hr]

theorem toStrMap_map_string (sm : StrMap) :
    toStrMap (sm.map (fun kv => (kv.1, Value.string kv.2))) = some sm := by
  induction sm with
  | nil => rfl
  | cons kv sm ih => simp [toStrMap, ih]

theorem nestedFieldLoop_append (seen : List String) (val : Value) (p : List String)
    (k : String) (m : Obj) (h : nestedFieldLoop seen val p = .found (.map m)) :
    nestedFieldLoop seen val (p ++ [k]) =
      match mapGet k m with
      | none => .absent
      | some x => .found x := by
  induction p generalizing seen val with
  | nil =>
    simp [nestedFieldLoop] at h
    subst h
    simp only [List.nil_append, nestedFieldLoop]
  | cons f rest ih =>
    cases val <;> simp [nestedFieldLoop] at h
    rename_i m0
    simp only [List.cons_append, nestedFieldLoop]
    cases hf : mapGet f m0 with
    | none => simp [hf] at h
    | some v =>
      simp only [hf] at h
      exact ih _ _ h

theorem NestedStringMap_found (obj : Obj) (p : List String) (sm : StrMap)
    (h : NestedStringMap obj p = .found sm) :
    ∃ m, NestedFieldNoCopy obj p = .found (.map m) ∧ toStrMap m = some sm := by
  unfold NestedStringMap nestedMapNoCopy at h
  cases hf : NestedFieldNoCopy obj p with
  | absent => simp [hf] at h
  | failed e => simp [hf] at h
  | found v =>
    cases v <;> simp [hf] at h
    rename_i m
    refine ⟨m, rfl, ?_⟩
    cases ht : toStrMap m with
    | none => simp [ht] at h
    | some r =>
      simp [ht] at h
      rw [h]

/-! ## Lemmas on `strconv.Atoi` -/

theorem parseUintLoop_ok_digits (n m : Nat) (cs : List Char)
    (h : parseUintLoop n cs = .ok m) : cs.all Char.isDigit = true := by
  induction cs generalizing n with
  | nil => rfl
  | cons c cs ih =>
    simp only [parseUintLoop] at h
    split at h
    · rename_i hc
      split at h
      · cases h
      · split at h
        · cases h
        · simp [hc, ih _ h]
    · cases h

theorem Atoi_ok_isDecimalInteger (s : String) (n : Int) (h : Atoi s = .ok n) :
    isDecimalInteger s = true := by
  unfold Atoi at h
  unfold isDecimalInteger
  simp only [String.toList] at h ⊢
  cases hs : s.data with
  | nil => simp [hs] at h
  | cons c cs =>
    simp only [hs] at h ⊢
    generalize hd : (if c = '+' ∨ c = '-' then cs else c :: cs) = digits at h ⊢
    cases hp : parseUint digits with
    | error b => cases b <;> simp [hp] at h
    | ok un =>
      cases digits with
      | nil => simp [parseUint] at hp
      | cons d ds =>
        simp only [parseUint] at hp
        have := parseUintLoop_ok_digits _ _ _ hp
        simpa using this

theorem Atoi_ok_range (s : String) (n : Int) (h : Atoi s = .ok n) :
    -(2 : Int) ^ 63 ≤ n ∧ n < (2 : Int) ^ 63 := by
  unfold Atoi at h
  simp only [String.toList] at h
  cases hs : s.data with
  | nil => simp [hs] at h
  | cons c cs =>
    simp only [hs] at h
    generalize (if c = '+' ∨ c = '-' then cs else c :: cs) = digits at h
    cases hp : parseUint digits with
    | error b => cases b <;> simp [hp] at h
    | ok un =>
      simp only [hp] at h
      split at h
      · cases h
      · split at h
        · cases h
        · rename_i h1 h2
          simp only [Except.ok.injEq] at h
          subst h
          by_cases hneg : c = '-'
          · simp [hneg] at h1 h2 ⊢
            omega
          · simp [hneg] at h1 h2 ⊢
            omega


/-! ## The shape of a call -/

theorem SchedulingWorkflow_cases {σ : Type} (env : Env σ) (st : State σ) (obj : Obj) :
    (∃ e, SchedulingWorkflow env st obj = ⟨.error e, st, obj, []⟩) ∨
    ∃ l a name nspace kind, metadataReads obj l a name nspace kind ∧
      SchedulingWorkflow env st obj =
        if env.ValidateWorkloadKind kind then
          scheduleWorkload env st obj l a name nspace kind
        else
          match (env.clientCreate st.cluster obj).err with
          | some err =>
            ⟨.error (wrap err "failed to create non-workload resources"),
              st.withCluster (env.clientCreate st.cluster obj).cluster,
              (env.clientCreate st.cluster obj).obj, [.clientCreate obj]⟩
          | none =>
            ⟨.success, st.withCluster (env.clientCreate st.cluster obj).cluster,
              (env.clientCreate st.cluster obj).obj, [.clientCreate obj]⟩ := by
  unfold SchedulingWorkflow
  cases h1 : stringMapOrNil obj labelsPath with
  | error e => exact Or.inl ⟨_, rfl⟩
  | ok l =>
  cases h2 : stringMapOrNil obj annotationsPath with
  | error e => exact Or.inl ⟨_, rfl⟩
  | ok a =>
  cases h3 : (NestedString obj ["metadata", "name"]).dropFound "" with
  | error e => exact Or.inl ⟨_, rfl⟩
  | ok name =>
  cases h4 : (NestedString obj ["metadata", "namespace"]).dropFound "" with
  | error e => exact Or.inl ⟨_, rfl⟩
  | ok nspace =>
  cases h5 : (NestedString obj ["kind"]).dropFound "" with
  | error e => exact Or.inl ⟨_, rfl⟩
  | ok kind =>
  refine Or.inr ⟨l, a, name, nspace, kind, ⟨h1, h2, h3, h4, h5⟩, ?_⟩
  cases hw : env.ValidateWorkloadKind kind <;> simp [hw]

theorem Atoi_empty : ∀ n : Int, Atoi "" ≠ .ok n := by
  intro n h
  cases h

theorem label_read (obj : Obj) (l : Option StrMap) (key : String) (n : Int)
    (hl : stringMapOrNil obj labelsPath = .ok l)
    (hn : Atoi (strIndex l key) = .ok n) :
    templateLabel obj key = some (strIndex l key) := by
  cases l with
  | none => exact absurd hn (Atoi_empty n)
  | some sm =>
    cases hk : mapGet key sm with
    | none =>
      simp only [strIndex, hk, Option.getD] at hn
      exact absurd hn (Atoi_empty n)
    | some s =>
      have hf : NestedStringMap obj labelsPath = .found sm := by
        unfold stringMapOrNil at hl
        cases hx : NestedStringMap obj labelsPath with
        | found m => simp [hx] at hl; rw [hl]
        | absent => simp [hx] at hl
        | failed e => simp [hx] at hl
      obtain ⟨m, hm, hsm⟩ := NestedStringMap_found _ _ _ hf
      have := nestedFieldLoop_append [] (.map obj) labelsPath key m hm
      simp only [templateLabel, NestedFieldNoCopy, this, toStrMap_mapGet m sm hsm, hk,
        Option.map, strIndex, Option.getD]


/-! ## The readiness predicate -/

/-- The closure of lines 175-198 on a status in which both compared fields are
integers: for each of the four replica-counting kinds it returns the
comparison of the two counts. -/
theorem readinessPredicate_replica_counts
    (parallelism : Int) (obj status : Obj) (x y : Int)
    (hstatus : (NestedMap obj ["status"]).dropFound [] = .ok status) :
    (mapGet "availableReplicas" status = some (.int64 x) →
      mapGet "replicas" status = some (.int64 y) →
      readinessPredicate "Deployment" parallelism obj = .val (decide (x = y))) ∧
    (mapGet "readyReplicas" status = some (.int64 x) →
      mapGet "replicas" status = some (.int64 y) →
      readinessPredicate "StatefulSet" parallelism obj = .val (decide (x = y))) ∧
    (mapGet "numberReady" status = some (.int64 x) →
      mapGet "desiredNumberScheduled" status = some (.int64 y) →
      readinessPredicate "DaemonSet" parallelism obj = .val (decide (x = y))) ∧
    (mapGet "availableReplicas" status = some (.int64 x) →
      mapGet "replicas" status = some (.int64 y) →
      readinessPredicate "ReplicaSet" parallelism obj = .val (decide (x = y))) := by
  refine ⟨?_, ?_, ?_, ?_⟩ <;> intro hx hy <;>
    simp [readinessPredicate, hstatus, ifaceIndex, hx, hy, ifaceEq]

/-- The closure of lines 175-198 for a Job: `readParallelism` reads p from
spec.parallelism, and with p captured the closure returns false when
status.succeeded is absent, the comparison with p when it is an integer, and
true exactly when it is the integer p. -/
theorem readinessPredicate_job
    (res : Obj) (p : Int)
    (hp : NestedInt64 res ["spec", "parallelism"] = .found p) :
    readParallelism jobKind res = .ok p ∧
    ∀ (obj status : Obj), (NestedMap obj ["status"]).dropFound [] = .ok status →
      (mapGet "succeeded" status = none →
        readinessPredicate jobKind p obj = .val false) ∧
      (∀ s : Int, mapGet "succeeded" status = some (.int64 s) →
        readinessPredicate jobKind p obj = .val (decide (s = p))) ∧
      (readinessPredicate jobKind p obj = .val true ↔
        mapGet "succeeded" status = some (.int64 p)) := by
  refine ⟨by simp [readParallelism, hp, Nested.dropFound], ?_⟩
  intro obj status hstatus
  refine ⟨?_, ?_, ?_⟩
  · intro h
    simp [readinessPredicate, hstatus, ifaceIndex, h, jobKind]
  · intro s h
    simp [readinessPredicate, hstatus, ifaceIndex, h, jobKind]
  · simp only [readinessPredicate, hstatus, ifaceIndex, jobKind]
    cases h : mapGet "succeeded" status with
    | none => simp
    | some v => cases v <;> simp

/-- C3: the code at a CronJob that has never been scheduled. With a status
that carries no lastScheduleTime (or with no status at all) the predicate
returns true, because the absent field is the nil interface, which differs
from the string `""`; only the empty string itself gives false. -/
theorem C3_cronjob_without_lastScheduleTime_is_reported_ready :
    readinessPredicate "CronJob" 0
      [("kind", .string "CronJob"), ("status", .map [("active", .slice [])])] = .val true ∧
    readinessPredicate "CronJob" 0 [("kind", .string "CronJob")] = .val true ∧
    readinessPredicate "CronJob" 0
      [("kind", .string "CronJob"), ("status", .map [("lastScheduleTime", .string "")])]
      = .val false := by
  decide

/-! ## Failures before the scheduler -/

/-- C4: for a workload resource whose replica label is missing or is not a
decimal integer, SchedulingWorkflow returns an error having made no call at
all (the scheduler is neither constructed nor set up nor asked to schedule,
nothing is created), with the state, hence the owner references, and the
resource left as they were. -/
theorem C4_invalid_replica_label_fails_before_any_call {σ : Type}
    (env : Env σ) (st : State σ) (obj : Obj) (kind : String)
    (hkind : NestedString obj ["kind"] = .found kind)
    (hworkload : env.ValidateWorkloadKind kind = true)
    (hlabel : ∀ s, templateLabel obj env.WorkloadReplicas = some s →
      isDecimalInteger s = false) :
    (∃ e, (SchedulingWorkflow env st obj).outcome = .error e) ∧
    (SchedulingWorkflow env st obj).calls = [] ∧
    (SchedulingWorkflow env st obj).state = st ∧
    (SchedulingWorkflow env st obj).obj = obj := by
  have hk : (NestedString obj ["kind"]).dropFound "" = .ok kind := by rw [hkind]; rfl
  rcases SchedulingWorkflow_cases env st obj with ⟨e, he⟩ | ⟨l, a, name, ns, kind', hr, he⟩
  · rw [he]
    exact ⟨⟨e, rfl⟩, rfl, rfl, rfl⟩
  · have hkk : kind' = kind := by
      have h5 := hr.2.2.2.2
      rw [hk] at h5
      cases h5
      rfl
    subst hkk
    rw [he, if_pos hworkload]
    cases hn : Atoi (strIndex l env.WorkloadReplicas) with
    | error e =>
      simp [scheduleWorkload, hn]
    | ok n =>
      have h1 := label_read obj l _ n hr.1 hn
      have h2 := Atoi_ok_isDecimalInteger _ _ hn
      rw [hlabel _ h1] at h2
      cases h2

/-- C4 at a Deployment whose replica label is `"abc"`. -/
theorem C4_witness_label_abc :
    (∃ e, (SchedulingWorkflow demoEnv (initialState []) (webDeployment "abc")).outcome
      = .error e) ∧
    (SchedulingWorkflow demoEnv (initialState []) (webDeployment "abc")).calls = [] ∧
    (SchedulingWorkflow demoEnv (initialState []) (webDeployment "abc")).state
      = initialState [] ∧
    (SchedulingWorkflow demoEnv (initialState []) (webDeployment "abc")).obj
      = webDeployment "abc" :=
  C4_invalid_replica_label_fails_before_any_call demoEnv (initialState [])
    (webDeployment "abc") "Deployment" rfl rfl
    (by
      intro s h
      have h' : some "abc" = some s := h
      cases h'
      rfl)


/-! ## Reading a field back after `SetNestedStringMap` -/

theorem setNestedLoop_head (seen : List String) (v : Value) (m m' : Obj) (x : String)
    (p : List String) (h : setNestedLoop seen v m (x :: p) = .ok m') :
    ∃ w, m' = mapSet x w m := by
  cases p with
  | nil =>
    simp only [setNestedLoop, Except.ok.injEq] at h
    exact ⟨v, h.symm⟩
  | cons g rest =>
    simp only [setNestedLoop] at h
    split at h
    · split at h
      · simp only [Except.ok.injEq] at h
        exact ⟨_, h.symm⟩
      · cases h
    · cases h
    · split at h
      · simp only [Except.ok.injEq] at h
        exact ⟨_, h.symm⟩
      · cases h

theorem nestedFieldLoop_set_same (seen seen' : List String) (v : Value) (m m' : Obj)
    (p : List String) (hp : p ≠ [])
    (h : setNestedLoop seen v m p = .ok m') :
    nestedFieldLoop seen' (.map m') p = .found v := by
  induction p generalizing seen seen' m m' with
  | nil => exact absurd rfl hp
  | cons f rest ih =>
    cases rest with
    | nil =>
      simp only [setNestedLoop, Except.ok.injEq] at h
      subst h
      simp [nestedFieldLoop, mapGet_mapSet]
    | cons g rest =>
      simp only [setNestedLoop] at h
      split at h
      · rename_i valMap hf
        split at h
        · rename_i valMap' hin
          simp only [Except.ok.injEq] at h
          subst h
          simp only [nestedFieldLoop, mapGet_mapSet, if_true]
          exact ih _ _ _ _ (by simp) hin
        · cases h
      · cases h
      · split at h
        · rename_i newVal hin
          simp only [Except.ok.injEq] at h
          subst h
          simp only [nestedFieldLoop, mapGet_mapSet, if_true]
          exact ih _ _ _ _ (by simp) hin
        · cases h

theorem nestedFieldLoop_empty (seen : List String) (q : List String) (hq : q ≠ []) :
    nestedFieldLoop seen (.map []) q = .absent := by
  cases q with
  | nil => exact absurd rfl hq
  | cons f rest => simp [nestedFieldLoop, mapGet]

theorem nestedFieldLoop_set_other (c : List String) (x y : String) (p q : List String)
    (hxy : x ≠ y) (seen seen' : List String) (v : Value) (m m' : Obj)
    (h : setNestedLoop seen v m (c ++ x :: p) = .ok m') :
    nestedFieldLoop seen' (.map m') (c ++ y :: q) =
      nestedFieldLoop seen' (.map m) (c ++ y :: q) := by
  induction c generalizing seen seen' m m' with
  | nil =>
    obtain ⟨w, hw⟩ := setNestedLoop_head _ _ _ _ _ _ h
    subst hw
    have hyx : ¬ y = x := fun e => hxy e.symm
    simp [nestedFieldLoop, mapGet_mapSet, hyx]
  | cons f c ih =>
    obtain ⟨g, rest, hg⟩ : ∃ g rest, c ++ x :: p = g :: rest := by
      cases c with
      | nil => exact ⟨x, p, rfl⟩
      | cons g c => exact ⟨g, c ++ x :: p, rfl⟩
    simp only [List.cons_append, hg, setNestedLoop] at h
    rw [← hg] at h
    simp only [List.cons_append, nestedFieldLoop]
    split at h
    · rename_i valMap hf
      split at h
      · rename_i valMap' hin
        simp only [Except.ok.injEq] at h
        subst h
        simp only [mapGet_mapSet, if_true, hf]
        exact ih _ _ _ _ hin
      · cases h
    · cases h
    · rename_i hf
      split at h
      · rename_i newVal hin
        simp only [Except.ok.injEq] at h
        subst h
        simp only [mapGet_mapSet, if_true, hf]
        exact (ih _ _ _ _ hin).trans (nestedFieldLoop_empty _ _ (by simp))
      · cases h

theorem NestedStringMap_set_same (obj obj' : Obj) (value : StrMap) (p : List String)
    (hp : p ≠ []) (h : SetNestedStringMap obj value p = .ok obj') :
    NestedStringMap obj' p = .found value := by
  have := nestedFieldLoop_set_same [] [] _ _ _ p hp h
  simp [NestedStringMap, nestedMapNoCopy, NestedFieldNoCopy, this, toStrMap_map_string]

theorem NestedFieldNoCopy_set_other (obj obj' : Obj) (value : StrMap)
    (c : List String) (x y : String) (p q : List String) (hxy : x ≠ y)
    (h : SetNestedStringMap obj value (c ++ x :: p) = .ok obj') :
    NestedFieldNoCopy obj' (c ++ y :: q) = NestedFieldNoCopy obj (c ++ y :: q) :=
  nestedFieldLoop_set_other c x y p q hxy [] [] _ _ _ h


theorem setNestedLoop_ok_of_found (seen seen' : List String) (v w : Value) (m : Obj)
    (p : List String) (hp : p ≠ [])
    (h : nestedFieldLoop seen (.map m) p = .found w) :
    ∃ m', setNestedLoop seen' v m p = .ok m' := by
  induction p generalizing seen seen' m with
  | nil => exact absurd rfl hp
  | cons f rest ih =>
    cases rest with
    | nil => exact ⟨_, rfl⟩
    | cons g rest =>
      simp only [nestedFieldLoop] at h
      cases hf : mapGet f m with
      | none => simp [hf] at h
      | some x =>
        simp only [hf] at h
        cases x <;> simp at h
        rename_i vm
        obtain ⟨m', hm'⟩ := ih (seen ++ [f]) (seen' ++ [f]) vm (by simp)
          (by simpa [nestedFieldLoop] using h)
        refine ⟨mapSet f (.map m') m, ?_⟩
        simp only [setNestedLoop, hf, hm']

theorem stringMapOrNil_some (obj : Obj) (p : List String) (sm : StrMap) :
    stringMapOrNil obj p = .ok (some sm) ↔ NestedStringMap obj p = .found sm := by
  unfold stringMapOrNil
  cases h : NestedStringMap obj p <;> simp

theorem dropFound_string (obj : Obj) (p : List String) (s : String)
    (h : (NestedString obj p).dropFound "" = .ok s) :
    (match NestedString obj p with
      | .found v => v
      | _ => "") = s := by
  cases hx : NestedString obj p <;> simp [hx, Nested.dropFound] at h ⊢
  · exact h
  · exact h

theorem SchedulingWorkflow_of_reads {σ : Type} (env : Env σ) (st : State σ) (obj : Obj)
    (l a : Option StrMap) (name nspace kind : String)
    (h : metadataReads obj l a name nspace kind) :
    SchedulingWorkflow env st obj =
      if env.ValidateWorkloadKind kind then
        scheduleWorkload env st obj l a name nspace kind
      else
        match (env.clientCreate st.cluster obj).err with
        | some err =>
          ⟨.error (wrap err "failed to create non-workload resources"),
            st.withCluster (env.clientCreate st.cluster obj).cluster,
            (env.clientCreate st.cluster obj).obj, [.clientCreate obj]⟩
        | none =>
          ⟨.success, st.withCluster (env.clientCreate st.cluster obj).cluster,
            (env.clientCreate st.cluster obj).obj, [.clientCreate obj]⟩ := by
  obtain ⟨h1, h2, h3, h4, h5⟩ := h
  unfold SchedulingWorkflow
  simp only [h1, h2, h3, h4, h5]
  cases hw : env.ValidateWorkloadKind kind <;> simp [hw]

theorem metadataReads_names (obj : Obj) (l a : Option StrMap) (name nspace kind : String)
    (h : metadataReads obj l a name nspace kind) :
    nameOf obj = name ∧ namespaceOf obj = nspace ∧ kindOf obj = kind :=
  ⟨dropFound_string _ _ _ h.2.2.1, dropFound_string _ _ _ h.2.2.2.1,
    dropFound_string _ _ _ h.2.2.2.2⟩

/-! ## Injection (lines 156-165) -/

/-- C6: for a workload resource whose pod template has a labels map L and an
annotations map A, when the replica label parses, the scheduler is set up and
returns the token t and the parallelism p is readable, the object handed to
`util.Create` (together with the readiness predicate of its kind and p) has
template labels L with the scheduling-enabled key set to `"true"` and template
annotations A with `scheduledOrder` set to t: every other key reads as before
and no other key appears. -/
theorem C6_injection_merges_into_labels_and_annotations {σ : Type}
    (env : Env σ) (st : State σ) (obj : Obj) (L A : StrMap)
    (name nspace kind t : String) (n p : Int)
    (hreads : metadataReads obj (some L) (some A) name nspace kind)
    (hworkload : env.ValidateWorkloadKind kind = true)
    (hreplicas : Atoi (strIndex (some L) env.WorkloadReplicas) = .ok n)
    (hsetup : (env.setupConfig st.cluster
      ⟨some A, some L, nspace, st.ownerReferences⟩).err = none)
    (hschedule : (env.schedule
      (env.setupConfig st.cluster ⟨some A, some L, nspace, st.ownerReferences⟩).cluster
      ⟨some A, some L, nspace, st.ownerReferences⟩ n).result = .ok t)
    (hparallelism : readParallelism kind obj = .ok p) :
    ∃ submitted rest L' A',
      (SchedulingWorkflow env st obj).calls =
        [.newScheduler ⟨some A, some L, nspace, st.ownerReferences⟩, .setupConfig,
          .schedule n, .utilCreate submitted (readinessPredicate kind p)] ++ rest ∧
      NestedStringMap submitted labelsPath = .found L' ∧
      NestedStringMap submitted annotationsPath = .found A' ∧
      L' = mapSet env.SchedulingEnabledLabel "true" L ∧
      A' = mapSet "scheduledOrder" t A ∧
      (∀ k, mapGet k L' = if k = env.SchedulingEnabledLabel then some "true" else mapGet k L) ∧
      (∀ k, mapGet k A' = if k = "scheduledOrder" then some t else mapGet k A) := by
  have hL := (stringMapOrNil_some _ _ _).1 hreads.1
  have hA := (stringMapOrNil_some _ _ _).1 hreads.2.1
  obtain ⟨mL, hmL, -⟩ := NestedStringMap_found _ _ _ hL
  obtain ⟨mA, hmA, -⟩ := NestedStringMap_found _ _ _ hA
  -- the two writes succeed
  obtain ⟨obj1, h1⟩ : ∃ obj1, SetNestedStringMap obj
      (mapSet env.SchedulingEnabledLabel "true" L) labelsPath = .ok obj1 :=
    setNestedLoop_ok_of_found [] [] _ _ _ labelsPath (by simp [labelsPath]) hmL
  have hA1 : NestedFieldNoCopy obj1 annotationsPath = NestedFieldNoCopy obj annotationsPath :=
    NestedFieldNoCopy_set_other obj obj1 _ ["spec", "template", "metadata"]
      "labels" "annotations" [] [] (by decide) h1
  obtain ⟨obj2, h2⟩ : ∃ obj2, SetNestedStringMap obj1
      (mapSet "scheduledOrder" t A) annotationsPath = .ok obj2 :=
    setNestedLoop_ok_of_found [] [] _ _ _ annotationsPath (by simp [annotationsPath])
      (hA1.trans hmA)
  -- what the written object reads back
  have hA2 : NestedStringMap obj2 annotationsPath = .found (mapSet "scheduledOrder" t A) :=
    NestedStringMap_set_same _ _ _ _ (by simp [annotationsPath]) h2
  have hL1 : NestedStringMap obj1 labelsPath =
      .found (mapSet env.SchedulingEnabledLabel "true" L) :=
    NestedStringMap_set_same _ _ _ _ (by simp [labelsPath]) h1
  have hL2 : NestedStringMap obj2 labelsPath =
      .found (mapSet env.SchedulingEnabledLabel "true" L) := by
    have : NestedFieldNoCopy obj2 labelsPath = NestedFieldNoCopy obj1 labelsPath :=
      NestedFieldNoCopy_set_other obj1 obj2 _ ["spec", "template", "metadata"]
        "annotations" "labels" [] [] (by decide) h2
    rw [← hL1]
    simp only [NestedStringMap, nestedMapNoCopy, this]
  have hp2 : readParallelism kind obj2 = .ok p := by
    have e1 : NestedFieldNoCopy obj1 ["spec", "parallelism"] =
        NestedFieldNoCopy obj ["spec", "parallelism"] :=
      NestedFieldNoCopy_set_other obj obj1 _ ["spec"] "template" "parallelism"
        ["metadata", "labels"] [] (by decide) h1
    have e2 : NestedFieldNoCopy obj2 ["spec", "parallelism"] =
        NestedFieldNoCopy obj1 ["spec", "parallelism"] :=
      NestedFieldNoCopy_set_other obj1 obj2 _ ["spec"] "template" "parallelism"
        ["metadata", "annotations"] [] (by decide) h2
    rw [← hparallelism]
    simp only [readParallelism, NestedInt64, e2, e1]
  have hcalls : ∃ rest, (SchedulingWorkflow env st obj).calls =
      [.newScheduler ⟨some A, some L, nspace, st.ownerReferences⟩, .setupConfig,
        .schedule n, .utilCreate obj2 (readinessPredicate kind p)] ++ rest := by
    rw [SchedulingWorkflow_of_reads env st obj _ _ _ _ _ hreads, if_pos hworkload]
    simp only [scheduleWorkload, hreplicas, State.withCluster, hsetup, hschedule,
      injectAndCreate, h1, h2, hp2]
    split
    · exact ⟨[], rfl⟩
    · exact ⟨[], rfl⟩
    · exact ⟨_, rfl⟩
  obtain ⟨rest, hrest⟩ := hcalls
  exact ⟨obj2, rest, _, _, hrest, hL2, hA2, rfl, rfl, fun k => mapGet_mapSet _ _ _ _,
    fun k => mapGet_mapSet _ _ _ _⟩


/-- C6 at a Deployment with labels `app` and the replica label `"2"` and the
annotation `note`, scheduled with the token `"order:0,1"`. -/
theorem C6_witness_web_deployment :
    ∃ submitted rest L' A',
      (SchedulingWorkflow demoEnv (initialState []) (webDeployment "2")).calls =
        [.newScheduler ⟨some [("note", "keep")],
            some [("app", "web"), ("workload-replicas", "2")], "default", []⟩,
          .setupConfig, .schedule 2,
          .utilCreate submitted (readinessPredicate "Deployment" 0)] ++ rest ∧
      NestedStringMap submitted labelsPath = .found L' ∧
      NestedStringMap submitted annotationsPath = .found A' ∧
      L' = mapSet "scheduling-enabled" "true" [("app", "web"), ("workload-replicas", "2")] ∧
      A' = mapSet "scheduledOrder" "order:0,1" [("note", "keep")] ∧
      (∀ k, mapGet k L' = if k = "scheduling-enabled" then some "true"
        else mapGet k [("app", "web"), ("workload-replicas", "2")]) ∧
      (∀ k, mapGet k A' = if k = "scheduledOrder" then some "order:0,1"
        else mapGet k [("note", "keep")]) :=
  C6_injection_merges_into_labels_and_annotations demoEnv (initialState [])
    (webDeployment "2") [("app", "web"), ("workload-replicas", "2")] [("note", "keep")]
    "web" "default" "Deployment" "order:0,1" 2 0
    ⟨rfl, rfl, rfl, rfl, rfl⟩ rfl rfl rfl rfl rfl

/-! ## The calls a workload makes -/

theorem chainOwner_calls {σ : Type} (env : Env σ) (st : State σ) (obj : Obj)
    (name nspace kind : String) :
    (chainOwner env st obj name nspace kind).calls = [.clientGet name nspace] := by
  simp only [chainOwner]
  split
  · rfl
  · split
    · rfl
    · split <;> rfl

theorem injectAndCreate_calls {σ : Type} (env : Env σ) (st : State σ) (obj : Obj)
    (l a : Option StrMap) (name nspace kind result : String) :
    ∃ o f k, (injectAndCreate env st obj l a name nspace kind result).calls =
      ([.utilCreate o f, .clientGet name nspace] : List Event).take k := by
  simp only [injectAndCreate]
  split
  · exact ⟨obj, fun _ => .val true, 0, rfl⟩
  · split
    · exact ⟨obj, fun _ => .val true, 0, rfl⟩
    · split
      · exact ⟨obj, fun _ => .val true, 0, rfl⟩
      · split
        · exact ⟨obj, fun _ => .val true, 0, rfl⟩
        · split
          · exact ⟨obj, fun _ => .val true, 0, rfl⟩
          · rename_i o _ _ p _
            split
            · exact ⟨o, readinessPredicate kind p, 1, rfl⟩
            · exact ⟨o, readinessPredicate kind p, 1, rfl⟩
            · exact ⟨o, readinessPredicate kind p, 2,
                by simp [Result.after, chainOwner_calls]⟩

theorem scheduleWorkload_calls {σ : Type} (env : Env σ) (st : State σ) (obj : Obj)
    (l a : Option StrMap) (name nspace kind : String) :
    (scheduleWorkload env st obj l a name nspace kind).calls = [] ∨
    ∃ n o f k, Atoi (strIndex l env.WorkloadReplicas) = .ok n ∧
      (scheduleWorkload env st obj l a name nspace kind).calls =
        ([.newScheduler ⟨a, l, nspace, st.ownerReferences⟩, .setupConfig, .schedule n,
          .utilCreate o f, .clientGet name nspace] : List Event).take k := by
  cases hn : Atoi (strIndex l env.WorkloadReplicas) with
  | error e => exact Or.inl (by simp [scheduleWorkload, hn])
  | ok n =>
    right
    simp only [scheduleWorkload, hn]
    split
    · exact ⟨n, obj, fun _ => .val true, 2, rfl, rfl⟩
    · split
      · exact ⟨n, obj, fun _ => .val true, 3, rfl, rfl⟩
      · rename_i result _
        obtain ⟨o, f, k, hk⟩ := injectAndCreate_calls env
          ((st.withCluster (env.setupConfig st.cluster
            ⟨a, l, nspace, st.ownerReferences⟩).cluster).withCluster
            (env.schedule (st.withCluster (env.setupConfig st.cluster
              ⟨a, l, nspace, st.ownerReferences⟩).cluster).cluster
              ⟨a, l, nspace, st.ownerReferences⟩ n).cluster)
          obj l a name nspace kind result
        refine ⟨n, o, f, k + 3, rfl, ?_⟩
        simp only [Result.after, hk]
        rfl


/-! ## The replica count handed to the scheduler -/

/-- C5 fails as stated: a Deployment whose replica label is `"0"`, and one
whose label is `"-1"`, are processed successfully and the scheduler is asked to
schedule 0 and -1 replicas. -/
theorem C5_counterexample_zero_and_negative_replicas_are_scheduled :
    (SchedulingWorkflow demoEnv (initialState []) (webDeployment "0")).outcome = .success ∧
    scheduledReplicas
      (SchedulingWorkflow demoEnv (initialState []) (webDeployment "0")).calls = [0] ∧
    (SchedulingWorkflow demoEnv (initialState []) (webDeployment "-1")).outcome = .success ∧
    scheduledReplicas
      (SchedulingWorkflow demoEnv (initialState []) (webDeployment "-1")).calls = [-1] := by
  decide

/-- C5 as amended: whenever SchedulingWorkflow calls `scheduler.Schedule(n)`,
n is the value `strconv.Atoi` reads from the replica label, a decimal integer
in the int64 range that may be zero or negative; and a workload resource whose
replica label is missing or is not parsed by `strconv.Atoi` fails before any
call is made. -/
theorem C5_scheduled_replicas_are_the_parsed_label {σ : Type}
    (env : Env σ) (st : State σ) (obj : Obj) :
    (∀ n, Event.schedule n ∈ (SchedulingWorkflow env st obj).calls →
      ∃ s, templateLabel obj env.WorkloadReplicas = some s ∧ Atoi s = .ok n ∧
        isDecimalInteger s = true ∧ -(2 : Int) ^ 63 ≤ n ∧ n < (2 : Int) ^ 63) ∧
    (∀ kind, NestedString obj ["kind"] = .found kind →
      env.ValidateWorkloadKind kind = true →
      (∀ s n, templateLabel obj env.WorkloadReplicas = some s → Atoi s ≠ .ok n) →
      (∃ e, (SchedulingWorkflow env st obj).outcome = .error e) ∧
      (SchedulingWorkflow env st obj).calls = []) := by
  constructor
  · intro n hmem
    rcases SchedulingWorkflow_cases env st obj with ⟨e, he⟩ | ⟨l, a, name, ns, kind, hr, he⟩
    · rw [he] at hmem
      cases hmem
    · rw [he] at hmem
      cases hw : env.ValidateWorkloadKind kind with
      | false =>
        simp only [hw, Bool.false_eq_true, if_false] at hmem
        split at hmem <;> simp at hmem
      | true =>
        simp only [hw, if_true] at hmem
        rcases scheduleWorkload_calls env st obj l a name ns kind with
          h0 | ⟨m, o, f, k, hm, hk⟩
        · rw [h0] at hmem
          cases hmem
        · rw [hk] at hmem
          have hfull := List.mem_of_mem_take hmem
          simp at hfull
          subst hfull
          have hlab := label_read obj l _ n hr.1 hm
          exact ⟨_, hlab, hm, Atoi_ok_isDecimalInteger _ _ hm, Atoi_ok_range _ _ hm⟩
  · intro kind hkind hworkload hlabel
    have hk : (NestedString obj ["kind"]).dropFound "" = .ok kind := by rw [hkind]; rfl
    rcases SchedulingWorkflow_cases env st obj with ⟨e, he⟩ | ⟨l, a, name, ns, kind', hr, he⟩
    · rw [he]
      exact ⟨⟨e, rfl⟩, rfl⟩
    · have hkk : kind' = kind := by
        have h5 := hr.2.2.2.2
        rw [hk] at h5
        cases h5
        rfl
      subst hkk
      rw [he, if_pos hworkload]
      cases hn : Atoi (strIndex l env.WorkloadReplicas) with
      | error e => simp [scheduleWorkload, hn]
      | ok n => exact absurd hn (hlabel _ n (label_read obj l _ n hr.1 hn))

/-- C5 as amended, at the Deployment whose replica label is `"0"` (the call
`Schedule(0)` is made with the parsed label) and at the one whose label is
`"abc"` (no call is made). -/
theorem C5_witness_label_zero_and_label_abc :
    (∃ s, templateLabel (webDeployment "0") "workload-replicas" = some s ∧ Atoi s = .ok 0 ∧
      isDecimalInteger s = true ∧ -(2 : Int) ^ 63 ≤ 0 ∧ (0 : Int) < (2 : Int) ^ 63) ∧
    ((∃ e, (SchedulingWorkflow demoEnv (initialState []) (webDeployment "abc")).outcome
        = .error e) ∧
      (SchedulingWorkflow demoEnv (initialState []) (webDeployment "abc")).calls = []) :=
  ⟨(C5_scheduled_replicas_are_the_parsed_label demoEnv (initialState [])
      (webDeployment "0")).1 0 (List.Mem.tail _ (List.Mem.tail _ (List.Mem.head _))),
   (C5_scheduled_replicas_are_the_parsed_label demoEnv (initialState [])
      (webDeployment "abc")).2 "Deployment" rfl rfl
      (by
        intro s n h
        have h' : some "abc" = some s := h
        cases h'
        have h2 : Atoi "abc" = .error (.numSyntax "Atoi" "abc") := rfl
        rw [h2]
        exact fun h3 => by cases h3)⟩

/-! ## Non-workload resources (lines 126-134) -/

/-- C7: a resource whose metadata reads succeed and whose kind the classifier
reports as non-workload is handed to the client's create exactly as received,
and that is the only call made (no scheduler call, no `util.Create` with its
readiness predicate, no re-fetch); the owner references are unchanged, and the
call returns an error exactly when the create fails. -/
theorem C7_non_workload_is_created_as_received {σ : Type}
    (env : Env σ) (st : State σ) (obj : Obj) (l a : Option StrMap)
    (name nspace kind : String)
    (hreads : metadataReads obj l a name nspace kind)
    (hnonworkload : env.ValidateWorkloadKind kind = false) :
    (SchedulingWorkflow env st obj).calls = [.clientCreate obj] ∧
    (SchedulingWorkflow env st obj).state.ownerReferences = st.ownerReferences ∧
    ((SchedulingWorkflow env st obj).outcome = .success ↔
      (env.clientCreate st.cluster obj).err = none) ∧
    (∀ c, (env.clientCreate st.cluster obj).err = some c →
      (SchedulingWorkflow env st obj).outcome =
        .error (wrap c "failed to create non-workload resources")) := by
  rw [SchedulingWorkflow_of_reads env st obj _ _ _ _ _ hreads]
  simp only [hnonworkload]
  cases hc : (env.clientCreate st.cluster obj).err <;> simp [State.withCluster]

/-- C7 at a ConfigMap. -/
theorem C7_witness_config_map :
    (SchedulingWorkflow demoEnv (initialState []) settingsConfigMap).calls
      = [.clientCreate settingsConfigMap] ∧
    (SchedulingWorkflow demoEnv (initialState []) settingsConfigMap).state.ownerReferences
      = [] ∧
    ((SchedulingWorkflow demoEnv (initialState []) settingsConfigMap).outcome = .success ↔
      (demoEnv.clientCreate [] settingsConfigMap).err = none) ∧
    (∀ c, (demoEnv.clientCreate [] settingsConfigMap).err = some c →
      (SchedulingWorkflow demoEnv (initialState []) settingsConfigMap).outcome =
        .error (wrap c "failed to create non-workload resources")) :=
  C7_non_workload_is_created_as_received demoEnv (initialState []) settingsConfigMap
    none none "settings" "default" "ConfigMap" ⟨rfl, rfl, rfl, rfl, rfl⟩ rfl


/-! ## The owner references after a call -/

theorem chainOwner_owner {σ : Type} (env : Env σ) (st : State σ) (obj : Obj)
    (name nspace kind : String) :
    ((chainOwner env st obj name nspace kind).outcome = .success ∧
      (chainOwner env st obj name nspace kind).state.ownerReferences =
        [⟨apiVersionOf (chainOwner env st obj name nspace kind).obj, kind, name,
          uidOf (chainOwner env st obj name nspace kind).obj⟩]) ∨
    ((chainOwner env st obj name nspace kind).outcome ≠ .success ∧
      (chainOwner env st obj name nspace kind).state.ownerReferences = st.ownerReferences) := by
  simp only [chainOwner]
  split
  · exact Or.inr ⟨by simp, rfl⟩
  · split
    · exact Or.inr ⟨by simp, rfl⟩
    · rename_i version hv
      split
      · exact Or.inr ⟨by simp, rfl⟩
      · rename_i uid hu
        refine Or.inl ⟨rfl, ?_⟩
        simp only [apiVersionOf, uidOf, dropFound_string _ _ _ hv, dropFound_string _ _ _ hu]

theorem injectAndCreate_owner {σ : Type} (env : Env σ) (st : State σ) (obj : Obj)
    (l a : Option StrMap) (name nspace kind result : String) :
    ((injectAndCreate env st obj l a name nspace kind result).outcome = .success ∧
      (injectAndCreate env st obj l a name nspace kind result).state.ownerReferences =
        [⟨apiVersionOf (injectAndCreate env st obj l a name nspace kind result).obj, kind,
          name, uidOf (injectAndCreate env st obj l a name nspace kind result).obj⟩]) ∨
    ((injectAndCreate env st obj l a name nspace kind result).outcome ≠ .success ∧
      (injectAndCreate env st obj l a name nspace kind result).state.ownerReferences =
        st.ownerReferences) := by
  simp only [injectAndCreate]
  split
  · exact Or.inr ⟨by simp, rfl⟩
  · split
    · exact Or.inr ⟨by simp, rfl⟩
    · split
      · exact Or.inr ⟨by simp, rfl⟩
      · split
        · exact Or.inr ⟨by simp, rfl⟩
        · split
          · exact Or.inr ⟨by simp, rfl⟩
          · split
            · exact Or.inr ⟨by simp, rfl⟩
            · exact Or.inr ⟨by simp, rfl⟩
            · exact chainOwner_owner env _ _ name nspace kind

theorem scheduleWorkload_owner {σ : Type} (env : Env σ) (st : State σ) (obj : Obj)
    (l a : Option StrMap) (name nspace kind : String) :
    ((scheduleWorkload env st obj l a name nspace kind).outcome = .success ∧
      (scheduleWorkload env st obj l a name nspace kind).state.ownerReferences =
        [⟨apiVersionOf (scheduleWorkload env st obj l a name nspace kind).obj, kind,
          name, uidOf (scheduleWorkload env st obj l a name nspace kind).obj⟩]) ∨
    ((scheduleWorkload env st obj l a name nspace kind).outcome ≠ .success ∧
      (scheduleWorkload env st obj l a name nspace kind).state.ownerReferences =
        st.ownerReferences) := by
  simp only [scheduleWorkload]
  split
  · exact Or.inr ⟨by simp, rfl⟩
  · split
    · exact Or.inr ⟨by simp, rfl⟩
    · split
      · exact Or.inr ⟨by simp, rfl⟩
      · exact injectAndCreate_owner env _ obj l a name nspace kind _

/-- The owner references after a call: the identity of the resource when the
call succeeded on a workload resource, the references of before otherwise. -/
theorem SchedulingWorkflow_owner {σ : Type} (env : Env σ) (st : State σ) (obj : Obj) :
    (SchedulingWorkflow env st obj).state.ownerReferences =
      if (SchedulingWorkflow env st obj).outcome = .success ∧
          env.ValidateWorkloadKind (kindOf obj) = true then
        [identityOf obj (SchedulingWorkflow env st obj).obj]
      else st.ownerReferences := by
  rcases SchedulingWorkflow_cases env st obj with ⟨e, he⟩ | ⟨l, a, name, ns, kind, hr, he⟩
  · rw [he]
    simp
  · obtain ⟨hname, -, hkind⟩ := metadataReads_names _ _ _ _ _ _ hr
    rw [he]
    cases hw : env.ValidateWorkloadKind kind with
    | false =>
      simp only [Bool.false_eq_true, if_false, hkind, hw, and_false]
      split <;> rfl
    | true =>
      simp only [if_true, hkind, hw, and_true]
      rcases scheduleWorkload_owner env st obj l a name ns kind with ⟨h1, h2⟩ | ⟨h1, h2⟩
      · rw [if_pos h1, h2, identityOf, hname, hkind]
      · rw [if_neg h1, h2]


theorem schedulerOwners_injectAndCreate {σ : Type} (env : Env σ) (st : State σ)
    (obj : Obj) (l a : Option StrMap) (name nspace kind result : String) :
    schedulerOwners (injectAndCreate env st obj l a name nspace kind result).calls = [] := by
  obtain ⟨o, f, k, hk⟩ := injectAndCreate_calls env st obj l a name nspace kind result
  rw [hk]
  rcases k with _ | _ | k <;> simp [schedulerOwners]

theorem schedulerOwners_scheduleWorkload {σ : Type} (env : Env σ) (st : State σ)
    (obj : Obj) (l a : Option StrMap) (name nspace kind : String) (n : Int)
    (hn : Atoi (strIndex l env.WorkloadReplicas) = .ok n) :
    schedulerOwners (scheduleWorkload env st obj l a name nspace kind).calls =
      [st.ownerReferences] ∧
    ∃ rest, (scheduleWorkload env st obj l a name nspace kind).calls =
      .newScheduler ⟨a, l, nspace, st.ownerReferences⟩ :: rest := by
  simp only [scheduleWorkload, hn]
  split
  · exact ⟨rfl, _, rfl⟩
  · split
    · exact ⟨rfl, _, rfl⟩
    · refine ⟨?_, _, rfl⟩
      simp [Result.after, schedulerOwners, schedulerOwners_injectAndCreate]

/-! ## Ownership chaining (lines 143-144 and 202-223) -/

/-- C8: when SchedulingWorkflow succeeds on a workload resource of kind k and
name n whose re-fetched object has apiVersion v and uid u, the owner references
become exactly `[{v, k, n, u}]`; every later call that starts from these owner
references on a workload resource whose replica label parses constructs the
scheduler once, with exactly that list; and from the initial state the
scheduler is constructed with the empty list. -/
theorem C8_owner_reference_is_chained_to_next_scheduler {σ : Type}
    (env : Env σ) (st : State σ) (obj : Obj) (k n v u : String)
    (hkind : NestedString obj ["kind"] = .found k)
    (hworkload : env.ValidateWorkloadKind k = true)
    (hname : NestedString obj ["metadata", "name"] = .found n)
    (hsuccess : (SchedulingWorkflow env st obj).outcome = .success)
    (hversion : NestedString (SchedulingWorkflow env st obj).obj ["apiVersion"] = .found v)
    (huid : NestedString (SchedulingWorkflow env st obj).obj ["metadata", "uid"] = .found u) :
    (SchedulingWorkflow env st obj).state.ownerReferences =
      [{ APIVersion := v, Kind := k, Name := n, UID := u }] ∧
    (∀ (st' : State σ) (next : Obj) (l a : Option StrMap) (name nspace kind : String)
        (m : Int),
      st'.ownerReferences = (SchedulingWorkflow env st obj).state.ownerReferences →
      metadataReads next l a name nspace kind →
      env.ValidateWorkloadKind kind = true →
      Atoi (strIndex l env.WorkloadReplicas) = .ok m →
      schedulerOwners (SchedulingWorkflow env st' next).calls =
        [[{ APIVersion := v, Kind := k, Name := n, UID := u }]] ∧
      ∃ rest, (SchedulingWorkflow env st' next).calls =
        .newScheduler ⟨a, l, nspace, [{ APIVersion := v, Kind := k, Name := n, UID := u }]⟩
          :: rest) ∧
    (∀ (cluster : σ) (first : Obj) (l a : Option StrMap) (name nspace kind : String)
        (m : Int),
      metadataReads first l a name nspace kind →
      env.ValidateWorkloadKind kind = true →
      Atoi (strIndex l env.WorkloadReplicas) = .ok m →
      schedulerOwners (SchedulingWorkflow env (initialState cluster) first).calls = [[]] ∧
      ∃ rest, (SchedulingWorkflow env (initialState cluster) first).calls =
        .newScheduler ⟨a, l, nspace, []⟩ :: rest) := by
  have howner : (SchedulingWorkflow env st obj).state.ownerReferences =
      [{ APIVersion := v, Kind := k, Name := n, UID := u }] := by
    have hk : kindOf obj = k := by simp [kindOf, hkind]
    rw [SchedulingWorkflow_owner, if_pos ⟨hsuccess, by rw [hk]; exact hworkload⟩]
    simp [identityOf, apiVersionOf, uidOf, nameOf, hk, hname, hversion, huid]
  refine ⟨howner, ?_, ?_⟩
  · intro st' next l a name nspace kind m hst hreads hw hm
    rw [SchedulingWorkflow_of_reads env st' next _ _ _ _ _ hreads, if_pos hw, ← howner, ← hst]
    exact schedulerOwners_scheduleWorkload env st' next l a name nspace kind m hm
  · intro cluster first l a name nspace kind m hreads hw hm
    rw [SchedulingWorkflow_of_reads env _ first _ _ _ _ _ hreads, if_pos hw]
    exact schedulerOwners_scheduleWorkload env (initialState cluster) first l a name nspace
      kind m hm

/-- C8 at the Deployment `web`, which the cluster resolves to apiVersion
`apps/v1` and uid `uid-web`. -/
theorem C8_witness_web_deployment :
    (SchedulingWorkflow demoEnv (initialState []) (webDeployment "2")).state.ownerReferences
      = [{ APIVersion := "apps/v1", Kind := "Deployment", Name := "web", UID := "uid-web" }] ∧
    schedulerOwners (SchedulingWorkflow demoEnv
      (SchedulingWorkflow demoEnv (initialState []) (webDeployment "2")).state
      (webDeployment "3")).calls =
        [[{ APIVersion := "apps/v1", Kind := "Deployment", Name := "web",
            UID := "uid-web" }]] ∧
    schedulerOwners
      (SchedulingWorkflow demoEnv (initialState []) (webDeployment "2")).calls = [[]] :=
  have h := C8_owner_reference_is_chained_to_next_scheduler demoEnv (initialState [])
    (webDeployment "2") "Deployment" "web" "apps/v1" "uid-web" rfl rfl rfl rfl rfl rfl
  ⟨h.1,
   (h.2.1 _ (webDeployment "3") (some [("app", "web"), ("workload-replicas", "3")])
      (some [("note", "keep")]) "web" "default" "Deployment" 3 rfl
      ⟨rfl, rfl, rfl, rfl, rfl⟩ rfl rfl).1,
   (h.2.2 [] (webDeployment "2") (some [("app", "web"), ("workload-replicas", "2")])
      (some [("note", "keep")]) "web" "default" "Deployment" 2
      ⟨rfl, rfl, rfl, rfl, rfl⟩ rfl rfl).1⟩

/-! ## The owner-reference invariant -/

theorem callAll_owner {σ : Type} (env : Env σ) (objs : List Obj) :
    ∀ (st : State σ) (acc : Option OwnerReference),
      st.ownerReferences = acc.toList →
      (callAll env st objs).ownerReferences =
        (lastSuccessfulWorkload env st objs acc).toList := by
  induction objs with
  | nil =>
    intro st acc h
    simpa [callAll, lastSuccessfulWorkload] using h
  | cons obj rest ih =>
    intro st acc h
    have ho := SchedulingWorkflow_owner env st obj
    simp only [callAll, lastSuccessfulWorkload]
    cases hout : (SchedulingWorkflow env st obj).outcome with
    | success =>
      simp only [hout, true_and] at ho ⊢
      cases hw : env.ValidateWorkloadKind (kindOf obj) with
      | true =>
        simp only [hw, if_true] at ho ⊢
        exact ih _ _ (by rw [ho]; rfl)
      | false =>
        simp only [hw, Bool.false_eq_true, if_false] at ho ⊢
        exact ih _ _ (by rw [ho]; exact h)
    | error e =>
      simp only [hout, false_and, if_false, reduceCtorEq] at ho ⊢
      exact ih _ _ (by rw [ho]; exact h)
    | panic msg =>
      simp only [hout, false_and, if_false, reduceCtorEq] at ho ⊢
      rw [ho]; exact h
    | fatal msg =>
      simp only [hout, false_and, if_false, reduceCtorEq] at ho ⊢
      rw [ho]; exact h

/-- C10: from the initial state, after any sequence of calls the owner
references hold at most one entry, which is the identity of the most recent
workload resource whose call returned success (none when there is no such
resource); and a call that returns an error leaves the owner references as
they were. -/
theorem C10_owner_references_hold_the_last_successful_workload {σ : Type}
    (env : Env σ) (cluster : σ) (objs : List Obj) :
    (callAll env (initialState cluster) objs).ownerReferences.length ≤ 1 ∧
    (callAll env (initialState cluster) objs).ownerReferences =
      (lastSuccessfulWorkload env (initialState cluster) objs none).toList ∧
    ∀ (st : State σ) (obj : Obj) (e : GoError),
      (SchedulingWorkflow env st obj).outcome = .error e →
      (SchedulingWorkflow env st obj).state.ownerReferences = st.ownerReferences := by
  have h := callAll_owner env objs (initialState cluster) none rfl
  refine ⟨?_, h, ?_⟩
  · rw [h]
    cases lastSuccessfulWorkload env (initialState cluster) objs none <;> simp
  · intro st obj e he
    rw [SchedulingWorkflow_owner, he]
    simp


/-- C10 at a workflow of a Deployment, a ConfigMap and a Deployment that
fails: the owner references end as the identity of the first Deployment. -/
theorem C10_witness_demo_workflow :
    (callAll demoEnv (initialState []) demoWorkflow).ownerReferences.length ≤ 1 ∧
    (callAll demoEnv (initialState []) demoWorkflow).ownerReferences =
      [{ APIVersion := "apps/v1", Kind := "Deployment", Name := "web", UID := "uid-web" }] ∧
    (SchedulingWorkflow demoEnv (initialState []) (webDeployment "abc")).state.ownerReferences
      = [] :=
  have h := C10_owner_references_hold_the_last_successful_workload demoEnv [] demoWorkflow
  ⟨h.1, h.2.1, h.2.2 (initialState []) (webDeployment "abc")
    ⟨"failed to get replicas", .numSyntax "Atoi" "abc"⟩ rfl⟩

/-! ## Malformed input -/

/-- C9 fails as stated: a resource without kind, name and namespace is created
and the call returns nil; a Job without `spec.parallelism` is scheduled,
created and the call returns nil; a Job whose `spec.parallelism` is a string
fails only after the scheduler has been asked to schedule. -/
theorem C9_counterexample_missing_fields_are_not_rejected :
    (SchedulingWorkflow demoEnv (initialState []) anonymousResource).outcome = .success ∧
    (SchedulingWorkflow demoEnv (initialState []) anonymousResource).calls.any
      Event.isCreate = true ∧
    (SchedulingWorkflow demoEnv (initialState []) batchJob).outcome = .success ∧
    (SchedulingWorkflow demoEnv (initialState []) batchJob).calls.any Event.isCreate = true ∧
    scheduledReplicas (SchedulingWorkflow demoEnv (initialState []) batchJob).calls = [1] ∧
    scheduledReplicas
      (SchedulingWorkflow demoEnv (initialState []) batchJobStringParallelism).calls = [1] := by
  decide

theorem readParallelism_after_injection (obj obj1 obj2 : Obj) (v1 v2 : StrMap)
    (kind : String)
    (h1 : SetNestedStringMap obj v1 labelsPath = .ok obj1)
    (h2 : SetNestedStringMap obj1 v2 annotationsPath = .ok obj2) :
    readParallelism kind obj2 = readParallelism kind obj := by
  have e1 : NestedFieldNoCopy obj1 ["spec", "parallelism"] =
      NestedFieldNoCopy obj ["spec", "parallelism"] :=
    NestedFieldNoCopy_set_other obj obj1 _ ["spec"] "template" "parallelism"
      ["metadata", "labels"] [] (by decide) h1
  have e2 : NestedFieldNoCopy obj2 ["spec", "parallelism"] =
      NestedFieldNoCopy obj1 ["spec", "parallelism"] :=
    NestedFieldNoCopy_set_other obj1 obj2 _ ["spec"] "template" "parallelism"
      ["metadata", "annotations"] [] (by decide) h2
  simp only [readParallelism, NestedInt64, e2, e1]

theorem injectAndCreate_unreadable_parallelism {σ : Type} (env : Env σ) (st : State σ)
    (obj : Obj) (l a : Option StrMap) (name nspace kind result : String) (c : Cause)
    (hp : readParallelism kind obj = .error c) :
    (injectAndCreate env st obj l a name nspace kind result).outcome ≠ .success ∧
    (injectAndCreate env st obj l a name nspace kind result).calls = [] := by
  simp only [injectAndCreate]
  split
  · exact ⟨by simp, rfl⟩
  · split
    · exact ⟨by simp, rfl⟩
    · rename_i h1
      split
      · exact ⟨by simp, rfl⟩
      · split
        · exact ⟨by simp, rfl⟩
        · rename_i h2
          rw [readParallelism_after_injection _ _ _ _ _ kind h1 h2, hp]
          exact ⟨by simp, rfl⟩

theorem dropFound_failed {α : Type} (zero : α) (r : Nested α) (c : Cause) (v : α)
    (h : r = .failed c) : r.dropFound zero ≠ .ok v := by
  subst h
  simp [Nested.dropFound]


/-! ## Injection into a template without annotations (line 162) -/

/-- For every workload resource whose pod template has a labels map and no
annotations map, once the replica label parses and the scheduler is set up and
returns a token, the call panics on the write into the nil annotations map,
after the scheduler calls and before anything is created. -/
theorem SchedulingWorkflow_panics_without_annotations {σ : Type}
    (env : Env σ) (st : State σ) (obj : Obj) (L : StrMap)
    (name nspace kind t : String) (n : Int)
    (hreads : metadataReads obj (some L) none name nspace kind)
    (hworkload : env.ValidateWorkloadKind kind = true)
    (hreplicas : Atoi (strIndex (some L) env.WorkloadReplicas) = .ok n)
    (hsetup : (env.setupConfig st.cluster
      ⟨none, some L, nspace, st.ownerReferences⟩).err = none)
    (hschedule : (env.schedule
      (env.setupConfig st.cluster ⟨none, some L, nspace, st.ownerReferences⟩).cluster
      ⟨none, some L, nspace, st.ownerReferences⟩ n).result = .ok t) :
    (SchedulingWorkflow env st obj).outcome = .panic "assignment to entry in nil map" ∧
    (SchedulingWorkflow env st obj).calls =
      [.newScheduler ⟨none, some L, nspace, st.ownerReferences⟩, .setupConfig,
        .schedule n] := by
  have hL := (stringMapOrNil_some _ _ _).1 hreads.1
  obtain ⟨mL, hmL, -⟩ := NestedStringMap_found _ _ _ hL
  obtain ⟨obj1, h1⟩ : ∃ obj1, SetNestedStringMap obj
      (mapSet env.SchedulingEnabledLabel "true" L) labelsPath = .ok obj1 :=
    setNestedLoop_ok_of_found [] [] _ _ _ labelsPath (by simp [labelsPath]) hmL
  rw [SchedulingWorkflow_of_reads env st obj _ _ _ _ _ hreads, if_pos hworkload]
  simp only [scheduleWorkload, hreplicas, State.withCluster, hsetup, hschedule,
    injectAndCreate, h1, Result.after]
  simp

/-- C11: the code at a Deployment whose pod template has labels (replica label
`"2"`) and no annotations map, on a cluster where the scheduler succeeds. The
annotations read back are the nil map, the write of `scheduledOrder` into it
panics with "assignment to entry in nil map"; the scheduler has been asked to
schedule 2 replicas by then and nothing is created. -/
theorem C11_injection_panics_on_template_without_annotations :
    stringMapOrNil bareDeployment annotationsPath = .ok none ∧
    (SchedulingWorkflow demoEnv (initialState []) bareDeployment).outcome =
      .panic "assignment to entry in nil map" ∧
    scheduledReplicas
      (SchedulingWorkflow demoEnv (initialState []) bareDeployment).calls = [2] ∧
    (SchedulingWorkflow demoEnv (initialState []) bareDeployment).calls.any
      Event.isCreate = false :=
  ⟨rfl, by decide, by decide, by decide⟩

/-! ## Readiness of the replica-counting kinds when fields are absent -/

/-! ## The predicate handed to `util.Create` (line 175) -/

theorem injectAndCreate_predicate {σ : Type} (env : Env σ) (st : State σ) (obj : Obj)
    (l a : Option StrMap) (name nspace kind result : String)
    (submitted : Obj) (pred : Obj → Eval Bool)
    (h : Event.utilCreate submitted pred ∈
      (injectAndCreate env st obj l a name nspace kind result).calls) :
    ∃ p, readParallelism kind obj = .ok p ∧ pred = readinessPredicate kind p := by
  simp only [injectAndCreate] at h
  split at h
  · cases h
  · split at h
    · cases h
    · rename_i h1
      split at h
      · cases h
      · split at h
        · cases h
        · rename_i h2
          split at h
          · cases h
          · rename_i p hp
            rw [readParallelism_after_injection _ _ _ _ _ kind h1 h2] at hp
            refine ⟨p, hp, ?_⟩
            split at h
            · simp at h
              exact h.2
            · simp at h
              exact h.2
            · simp [Result.after, chainOwner_calls] at h
              exact h.2

/-- Every readiness predicate `SchedulingWorkflow` hands to `util.Create` is the
closure of lines 175-198 with the kind of the resource and the parallelism
that `readParallelism` gives for it. -/
theorem SchedulingWorkflow_predicate {σ : Type} (env : Env σ) (st : State σ) (obj : Obj)
    (submitted : Obj) (pred : Obj → Eval Bool)
    (h : Event.utilCreate submitted pred ∈ (SchedulingWorkflow env st obj).calls) :
    ∃ p, readParallelism (kindOf obj) obj = .ok p ∧
      pred = readinessPredicate (kindOf obj) p := by
  rcases SchedulingWorkflow_cases env st obj with ⟨e, he⟩ | ⟨l, a, name, ns, kind, hr, he⟩
  · rw [he] at h
    cases h
  · obtain ⟨-, -, hkind⟩ := metadataReads_names _ _ _ _ _ _ hr
    rw [he] at h
    rw [hkind]
    cases hw : env.ValidateWorkloadKind kind with
    | false =>
      simp only [hw, Bool.false_eq_true, if_false] at h
      split at h <;> simp at h
    | true =>
      simp only [hw, if_true, scheduleWorkload] at h
      split at h
      · cases h
      · split at h
        · simp at h
        · split at h
          · simp at h
          · simp only [Result.after, List.mem_append, List.mem_cons, List.mem_singleton,
              List.not_mem_nil, or_false, reduceCtorEq, false_or] at h
            exact injectAndCreate_predicate env _ obj l a name ns kind _ submitted pred h


/-- C1: the readiness predicate SchedulingWorkflow hands to util.Create for a
Deployment, StatefulSet, DaemonSet or ReplicaSet returns, on every fetched
object whose status has both compared fields as integers, the comparison of
the two counts: availableReplicas with replicas for a Deployment and a
ReplicaSet, readyReplicas with replicas for a StatefulSet, numberReady with
desiredNumberScheduled for a DaemonSet. -/
theorem C1_handed_predicate_compares_replica_counts {σ : Type}
    (env : Env σ) (st : State σ) (res : Obj) (kind a b : String)
    (hkind : NestedString res ["kind"] = .found kind)
    (hfields : (kind, a, b) ∈ replicaCountFields)
    (submitted : Obj) (pred : Obj → Eval Bool)
    (hcall : Event.utilCreate submitted pred ∈ (SchedulingWorkflow env st res).calls)
    (obj status : Obj) (x y : Int)
    (hstatus : (NestedMap obj ["status"]).dropFound [] = .ok status)
    (ha : mapGet a status = some (.int64 x))
    (hb : mapGet b status = some (.int64 y)) :
    pred obj = .val (decide (x = y)) := by
  obtain ⟨p, -, hpred⟩ := SchedulingWorkflow_predicate env st res submitted pred hcall
  have hk : kindOf res = kind := by simp [kindOf, hkind]
  rw [hpred, hk]
  have h := readinessPredicate_replica_counts p obj status x y hstatus
  simp only [replicaCountFields, List.mem_cons, List.mem_singleton, List.not_mem_nil,
    or_false, Prod.mk.injEq] at hfields
  rcases hfields with ⟨rfl, rfl, rfl⟩ | ⟨rfl, rfl, rfl⟩ | ⟨rfl, rfl, rfl⟩ | ⟨rfl, rfl, rfl⟩
  · exact h.1 ha hb
  · exact h.2.1 ha hb
  · exact h.2.2.1 ha hb
  · exact h.2.2.2 ha hb

/-- C1 at the Deployment `web`: the predicate handed to util.Create reports a
fetched Deployment with 3 of 3 replicas ready and one with 2 of 3 not ready. -/
theorem C1_witness_deployment_3_of_3_and_2_of_3 :
    ∃ submitted pred,
      Event.utilCreate submitted pred ∈
        (SchedulingWorkflow demoEnv (initialState []) (webDeployment "2")).calls ∧
      pred (fetched 3 3) = .val true ∧ pred (fetched 2 3) = .val false :=
  have hcall : Event.utilCreate _ (readinessPredicate "Deployment" 0) ∈
      (SchedulingWorkflow demoEnv (initialState []) (webDeployment "2")).calls :=
    List.Mem.tail _ (List.Mem.tail _ (List.Mem.tail _ (List.Mem.head _)))
  ⟨_, _, hcall,
    C1_handed_predicate_compares_replica_counts demoEnv (initialState [])
      (webDeployment "2") "Deployment" "availableReplicas" "replicas" rfl (List.Mem.head _)
      _ _ hcall (fetched 3 3)
      [("availableReplicas", .int64 3), ("replicas", .int64 3)] 3 3 rfl rfl rfl,
    C1_handed_predicate_compares_replica_counts demoEnv (initialState [])
      (webDeployment "2") "Deployment" "availableReplicas" "replicas" rfl (List.Mem.head _)
      _ _ hcall (fetched 2 3)
      [("availableReplicas", .int64 2), ("replicas", .int64 3)] 2 3 rfl rfl rfl⟩

/-- C2: the readiness predicate SchedulingWorkflow hands to util.Create for a
Job whose spec.parallelism is p returns, on every fetched object, false when
status.succeeded is absent and the comparison of status.succeeded with p when
that field is an integer; over all statuses it returns true exactly when
status.succeeded is the integer p. -/
theorem C2_handed_job_predicate_compares_succeeded_with_parallelism {σ : Type}
    (env : Env σ) (st : State σ) (res : Obj) (p : Int)
    (hkind : NestedString res ["kind"] = .found jobKind)
    (hp : NestedInt64 res ["spec", "parallelism"] = .found p)
    (submitted : Obj) (pred : Obj → Eval Bool)
    (hcall : Event.utilCreate submitted pred ∈ (SchedulingWorkflow env st res).calls)
    (obj status : Obj)
    (hstatus : (NestedMap obj ["status"]).dropFound [] = .ok status) :
    (mapGet "succeeded" status = none → pred obj = .val false) ∧
    (∀ s : Int, mapGet "succeeded" status = some (.int64 s) →
      pred obj = .val (decide (s = p))) ∧
    (pred obj = .val true ↔ mapGet "succeeded" status = some (.int64 p)) := by
  obtain ⟨q, hq, hpred⟩ := SchedulingWorkflow_predicate env st res submitted pred hcall
  have hk : kindOf res = jobKind := by simp [kindOf, hkind]
  obtain ⟨hread, h⟩ := readinessPredicate_job res p hp
  rw [hk, hread] at hq
  cases hq
  rw [hpred, hk]
  exact h obj status hstatus

/-- C2 at the Job `batch` with parallelism 4: the predicate handed to
util.Create reports it not ready while succeeded is absent or 3, and ready
when succeeded is 4. -/
theorem C2_witness_job_parallelism_4 :
    ∃ submitted pred,
      Event.utilCreate submitted pred ∈
        (SchedulingWorkflow demoEnv (initialState []) batchJobParallelism4).calls ∧
      pred [("status", .map [])] = .val false ∧
      pred [("status", .map [("succeeded", .int64 3)])] = .val false ∧
      pred [("status", .map [("succeeded", .int64 4)])] = .val true :=
  have hcall : Event.utilCreate _ (readinessPredicate jobKind 4) ∈
      (SchedulingWorkflow demoEnv (initialState []) batchJobParallelism4).calls :=
    List.Mem.tail _ (List.Mem.tail _ (List.Mem.tail _ (List.Mem.head _)))
  have h := C2_handed_job_predicate_compares_succeeded_with_parallelism demoEnv
    (initialState []) batchJobParallelism4 4 rfl rfl _ _ hcall
  ⟨_, _, hcall,
    (h [("status", .map [])] [] rfl).1 rfl,
    (h [("status", .map [("succeeded", .int64 3)])] [("succeeded", .int64 3)] rfl).2.1 3 rfl,
    (h [("status", .map [("succeeded", .int64 4)])] [("succeeded", .int64 4)] rfl).2.1 4 rfl⟩


theorem readinessPredicate_replica_kinds (parallelism : Int) (obj status : Obj)
    (kind a b : String) (hfields : (kind, a, b) ∈ replicaCountFields)
    (hstatus : (NestedMap obj ["status"]).dropFound [] = .ok status) :
    readinessPredicate kind parallelism obj =
      ifaceEq (ifaceIndex status a) (ifaceIndex status b) := by
  simp only [replicaCountFields, List.mem_cons, List.mem_singleton, List.not_mem_nil,
    or_false, Prod.mk.injEq] at hfields
  rcases hfields with ⟨rfl, rfl, rfl⟩ | ⟨rfl, rfl, rfl⟩ | ⟨rfl, rfl, rfl⟩ | ⟨rfl, rfl, rfl⟩ <;>
    simp [readinessPredicate, hstatus]

theorem ifaceIndex_holdsNoValue (status : Obj) (field : String)
    (h : holdsNoValue status field) : ifaceIndex status field = .null := by
  rcases h with h | h <;> simp [ifaceIndex, h]

theorem ifaceIndex_holdsValue (status : Obj) (field : String)
    (h : holdsValue status field) : ifaceIndex status field ≠ .null := by
  obtain ⟨v, hv, hne⟩ := h
  simpa [ifaceIndex, hv] using hne

theorem ifaceEq_null (v : Value) (hv : v ≠ Value.null) :
    ifaceEq v .null = .val false ∧ ifaceEq .null v = .val false := by
  cases v <;> simp [ifaceEq] at hv ⊢

/-- C12 fails as stated: the predicate SchedulingWorkflow hands to util.Create
for a Deployment returns true on a fetched object whose status has `replicas`
(holding null) and no `availableReplicas`, that is with exactly one of the two
compared fields present. -/
theorem C12_counterexample_null_field_counts_as_absent :
    ∃ submitted pred,
      Event.utilCreate submitted pred ∈
        (SchedulingWorkflow demoEnv (initialState []) (webDeployment "2")).calls ∧
      mapGet "replicas" [("replicas", Value.null)] = some Value.null ∧
      mapGet "availableReplicas" [("replicas", Value.null)] = none ∧
      pred [("kind", .string "Deployment"), ("status", .map [("replicas", .null)])]
        = .val true :=
  ⟨_, readinessPredicate "Deployment" 0,
    List.Mem.tail _ (List.Mem.tail _ (List.Mem.tail _ (List.Mem.head _))), rfl, rfl, rfl⟩

/-- C12 as amended: the readiness predicate SchedulingWorkflow hands to
util.Create for a Deployment, StatefulSet, DaemonSet or ReplicaSet, with a and
b the two status fields the kind compares, returns true when the fetched
object has no status and when neither a nor b holds a value (each is absent or
null), and returns false when exactly one of them holds a value other than
null. -/
theorem C12_handed_predicate_on_fields_without_value {σ : Type}
    (env : Env σ) (st : State σ) (res : Obj) (kind a b : String)
    (hkind : NestedString res ["kind"] = .found kind)
    (hfields : (kind, a, b) ∈ replicaCountFields)
    (submitted : Obj) (pred : Obj → Eval Bool)
    (hcall : Event.utilCreate submitted pred ∈ (SchedulingWorkflow env st res).calls)
    (obj : Obj) :
    (NestedMap obj ["status"] = .absent → pred obj = .val true) ∧
    (∀ status, NestedMap obj ["status"] = .found status →
      (holdsNoValue status a → holdsNoValue status b → pred obj = .val true) ∧
      (holdsValue status a → holdsNoValue status b → pred obj = .val false) ∧
      (holdsNoValue status a → holdsValue status b → pred obj = .val false)) := by
  obtain ⟨p, -, hpred⟩ := SchedulingWorkflow_predicate env st res submitted pred hcall
  have hk : kindOf res = kind := by simp [kindOf, hkind]
  rw [hpred, hk]
  refine ⟨?_, ?_⟩
  · intro hs
    rw [readinessPredicate_replica_kinds p obj [] kind a b hfields (by rw [hs]; rfl)]
    rfl
  · intro status hs
    rw [readinessPredicate_replica_kinds p obj status kind a b hfields (by rw [hs]; rfl)]
    refine ⟨?_, ?_, ?_⟩
    · intro ha hb
      rw [ifaceIndex_holdsNoValue _ _ ha, ifaceIndex_holdsNoValue _ _ hb]
      rfl
    · intro ha hb
      rw [ifaceIndex_holdsNoValue _ _ hb]
      exact (ifaceEq_null _ (ifaceIndex_holdsValue _ _ ha)).1
    · intro ha hb
      rw [ifaceIndex_holdsNoValue _ _ ha]
      exact (ifaceEq_null _ (ifaceIndex_holdsValue _ _ hb)).2

/-- C12 as amended, at the Deployment `web`: the predicate handed to
util.Create reports a fetched Deployment ready without status, with an empty
status and with a status whose `replicas` is null, and not ready with a status
that only has `replicas` 3. -/
theorem C12_witness_deployment_without_counts :
    ∃ submitted pred,
      Event.utilCreate submitted pred ∈
        (SchedulingWorkflow demoEnv (initialState []) (webDeployment "2")).calls ∧
      pred [("kind", .string "Deployment")] = .val true ∧
      pred [("kind", .string "Deployment"), ("status", .map [])] = .val true ∧
      pred [("kind", .string "Deployment"), ("status", .map [("replicas", .null)])]
        = .val true ∧
      pred [("kind", .string "Deployment"), ("status", .map [("replicas", .int64 3)])]
        = .val false :=
  have hcall : Event.utilCreate _ (readinessPredicate "Deployment" 0) ∈
      (SchedulingWorkflow demoEnv (initialState []) (webDeployment "2")).calls :=
    List.Mem.tail _ (List.Mem.tail _ (List.Mem.tail _ (List.Mem.head _)))
  have h := C12_handed_predicate_on_fields_without_value demoEnv (initialState [])
    (webDeployment "2") "Deployment" "availableReplicas" "replicas" rfl (List.Mem.head _)
    _ _ hcall
  ⟨_, _, hcall,
    (h [("kind", .string "Deployment")]).1 rfl,
    ((h [("kind", .string "Deployment"), ("status", .map [])]).2 [] rfl).1
      (Or.inl rfl) (Or.inl rfl),
    ((h [("kind", .string "Deployment"), ("status", .map [("replicas", .null)])]).2
      [("replicas", .null)] rfl).1 (Or.inl rfl) (Or.inr rfl),
    ((h [("kind", .string "Deployment"), ("status", .map [("replicas", .int64 3)])]).2
      [("replicas", .int64 3)] rfl).2.2 (Or.inl rfl) ⟨.int64 3, rfl, by simp⟩⟩


/-! ## Unreadable and absent fields -/

/-- The result of reading a string field with the found flag dropped: the
value when the field is there, the empty string when it is absent. -/
theorem dropFound_found_or_absent (obj : Obj) (path : List String) (s : String)
    (h : NestedString obj path = .found s ∨ (NestedString obj path = .absent ∧ s = "")) :
    (NestedString obj path).dropFound "" = .ok s := by
  rcases h with h | ⟨h, rfl⟩ <;> rw [h] <;> rfl

/-- C9 as amended. (1) A resource whose kind, metadata.name or
metadata.namespace is present but cannot be read as a string makes
SchedulingWorkflow return an error with no call made and nothing changed;
(2-4) the error names the field when the reads before it succeed. (5) A Job
whose spec.parallelism is present but is not an integer is never created and
its call never returns success; (6) when that call gets as far as the read
(labels and annotations maps there, replica label parsed, scheduler set up and
token returned) it returns "failed to get completions of job" having made
exactly the three scheduler calls. (7) A resource that lacks kind,
metadata.name or metadata.namespace is processed with the empty string as the
value of each field it lacks, so (8) with an absent kind that the classifier
reports as non-workload the only call is the create of the resource as
received. (9) For a Job that lacks spec.parallelism every readiness predicate
handed to util.Create captures parallelism 0. -/
theorem C9_unreadable_fields_are_fatal_and_absent_fields_read_as_zero {σ : Type}
    (env : Env σ) (st : State σ) (obj : Obj) :
    (∀ path c, path ∈ [["metadata", "name"], ["metadata", "namespace"], ["kind"]] →
      NestedString obj path = .failed c →
      (∃ e, (SchedulingWorkflow env st obj).outcome = .error e) ∧
      (SchedulingWorkflow env st obj).calls = [] ∧
      (SchedulingWorkflow env st obj).state = st ∧
      (SchedulingWorkflow env st obj).obj = obj) ∧
    (∀ l a c, stringMapOrNil obj labelsPath = .ok l →
      stringMapOrNil obj annotationsPath = .ok a →
      NestedString obj ["metadata", "name"] = .failed c →
      (SchedulingWorkflow env st obj).outcome =
        .error (wrap c "failed to get the name of resource")) ∧
    (∀ l a name c, stringMapOrNil obj labelsPath = .ok l →
      stringMapOrNil obj annotationsPath = .ok a →
      (NestedString obj ["metadata", "name"]).dropFound "" = .ok name →
      NestedString obj ["metadata", "namespace"] = .failed c →
      (SchedulingWorkflow env st obj).outcome =
        .error (wrap c "failed to get the namespace of resource")) ∧
    (∀ l a name nspace c, stringMapOrNil obj labelsPath = .ok l →
      stringMapOrNil obj annotationsPath = .ok a →
      (NestedString obj ["metadata", "name"]).dropFound "" = .ok name →
      (NestedString obj ["metadata", "namespace"]).dropFound "" = .ok nspace →
      NestedString obj ["kind"] = .failed c →
      (SchedulingWorkflow env st obj).outcome =
        .error (wrap c "failed to get the kind of resource")) ∧
    (∀ l a name nspace c, metadataReads obj l a name nspace jobKind →
      env.ValidateWorkloadKind jobKind = true →
      NestedInt64 obj ["spec", "parallelism"] = .failed c →
      (SchedulingWorkflow env st obj).outcome ≠ .success ∧
      (SchedulingWorkflow env st obj).calls.any Event.isCreate = false) ∧
    (∀ L A name nspace c n t,
      metadataReads obj (some L) (some A) name nspace jobKind →
      env.ValidateWorkloadKind jobKind = true →
      NestedInt64 obj ["spec", "parallelism"] = .failed c →
      Atoi (strIndex (some L) env.WorkloadReplicas) = .ok n →
      (env.setupConfig st.cluster ⟨some A, some L, nspace, st.ownerReferences⟩).err
        = none →
      (env.schedule
        (env.setupConfig st.cluster ⟨some A, some L, nspace, st.ownerReferences⟩).cluster
        ⟨some A, some L, nspace, st.ownerReferences⟩ n).result = .ok t →
      (SchedulingWorkflow env st obj).outcome =
        .error (wrap c "failed to get completions of job") ∧
      (SchedulingWorkflow env st obj).calls =
        [.newScheduler ⟨some A, some L, nspace, st.ownerReferences⟩, .setupConfig,
          .schedule n]) ∧
    (∀ l a name nspace kind, stringMapOrNil obj labelsPath = .ok l →
      stringMapOrNil obj annotationsPath = .ok a →
      (NestedString obj ["metadata", "name"] = .found name ∨
        (NestedString obj ["metadata", "name"] = .absent ∧ name = "")) →
      (NestedString obj ["metadata", "namespace"] = .found nspace ∨
        (NestedString obj ["metadata", "namespace"] = .absent ∧ nspace = "")) →
      (NestedString obj ["kind"] = .found kind ∨
        (NestedString obj ["kind"] = .absent ∧ kind = "")) →
      SchedulingWorkflow env st obj =
        if env.ValidateWorkloadKind kind then
          scheduleWorkload env st obj l a name nspace kind
        else
          match (env.clientCreate st.cluster obj).err with
          | some err =>
            ⟨.error (wrap err "failed to create non-workload resources"),
              st.withCluster (env.clientCreate st.cluster obj).cluster,
              (env.clientCreate st.cluster obj).obj, [.clientCreate obj]⟩
          | none =>
            ⟨.success, st.withCluster (env.clientCreate st.cluster obj).cluster,
              (env.clientCreate st.cluster obj).obj, [.clientCreate obj]⟩) ∧
    (∀ l a name nspace, stringMapOrNil obj labelsPath = .ok l →
      stringMapOrNil obj annotationsPath = .ok a →
      (NestedString obj ["metadata", "name"]).dropFound "" = .ok name →
      (NestedString obj ["metadata", "namespace"]).dropFound "" = .ok nspace →
      NestedString obj ["kind"] = .absent →
      env.ValidateWorkloadKind "" = false →
      (SchedulingWorkflow env st obj).calls = [.clientCreate obj]) ∧
    (NestedString obj ["kind"] = .found jobKind →
      NestedInt64 obj ["spec", "parallelism"] = .absent →
      ∀ submitted pred,
        Event.utilCreate submitted pred ∈ (SchedulingWorkflow env st obj).calls →
        pred = readinessPredicate jobKind 0) := by
  refine ⟨?_, ?_, ?_, ?_, ?_, ?_, ?_, ?_, ?_⟩
  · intro path c hpath hfail
    rcases SchedulingWorkflow_cases env st obj with ⟨e, he⟩ | ⟨l, a, name, ns, kind, hr, -⟩
    · rw [he]
      exact ⟨⟨e, rfl⟩, rfl, rfl, rfl⟩
    · exfalso
      obtain ⟨-, -, h3, h4, h5⟩ := hr
      simp only [List.mem_cons, List.mem_singleton, List.not_mem_nil, or_false] at hpath
      rcases hpath with rfl | rfl | rfl
      · exact dropFound_failed _ _ _ _ hfail h3
      · exact dropFound_failed _ _ _ _ hfail h4
      · exact dropFound_failed _ _ _ _ hfail h5
  · intro l a c h1 h2 h3
    have h3' : (NestedString obj ["metadata", "name"]).dropFound "" = .error c := by
      rw [h3]; rfl
    simp only [SchedulingWorkflow, h1, h2, h3']
  · intro l a name c h1 h2 h3 h4
    have h4' : (NestedString obj ["metadata", "namespace"]).dropFound "" = .error c := by
      rw [h4]; rfl
    simp only [SchedulingWorkflow, h1, h2, h3, h4']
  · intro l a name nspace c h1 h2 h3 h4 h5
    have h5' : (NestedString obj ["kind"]).dropFound "" = .error c := by
      rw [h5]; rfl
    simp only [SchedulingWorkflow, h1, h2, h3, h4, h5']
  · intro l a name nspace c hreads hw hfail
    have hp : readParallelism jobKind obj = .error c := by
      simp [readParallelism, hfail, Nested.dropFound]
    rw [SchedulingWorkflow_of_reads env st obj _ _ _ _ _ hreads, if_pos hw]
    simp only [scheduleWorkload]
    split
    · exact ⟨by simp, rfl⟩
    · split
      · exact ⟨by simp, rfl⟩
      · split
        · exact ⟨by simp, rfl⟩
        · rename_i result _
          obtain ⟨ho, hc⟩ := injectAndCreate_unreadable_parallelism env
            ((st.withCluster (env.setupConfig st.cluster
              ⟨a, l, nspace, st.ownerReferences⟩).cluster).withCluster
              (env.schedule (st.withCluster (env.setupConfig st.cluster
                ⟨a, l, nspace, st.ownerReferences⟩).cluster).cluster
                ⟨a, l, nspace, st.ownerReferences⟩ _).cluster)
            obj l a name nspace jobKind result c hp
          refine ⟨ho, ?_⟩
          simp only [Result.after, hc]
          rfl
  · intro L A name nspace c n t hreads hw hfail hn hsetup hsched
    have hp : readParallelism jobKind obj = .error c := by
      simp [readParallelism, hfail, Nested.dropFound]
    have hL := (stringMapOrNil_some _ _ _).1 hreads.1
    have hA := (stringMapOrNil_some _ _ _).1 hreads.2.1
    obtain ⟨mL, hmL, -⟩ := NestedStringMap_found _ _ _ hL
    obtain ⟨mA, hmA, -⟩ := NestedStringMap_found _ _ _ hA
    obtain ⟨obj1, h1⟩ : ∃ obj1, SetNestedStringMap obj
        (mapSet env.SchedulingEnabledLabel "true" L) labelsPath = .ok obj1 :=
      setNestedLoop_ok_of_found [] [] _ _ _ labelsPath (by simp [labelsPath]) hmL
    have hA1 : NestedFieldNoCopy obj1 annotationsPath =
        NestedFieldNoCopy obj annotationsPath :=
      NestedFieldNoCopy_set_other obj obj1 _ ["spec", "template", "metadata"]
        "labels" "annotations" [] [] (by decide) h1
    obtain ⟨obj2, h2⟩ : ∃ obj2, SetNestedStringMap obj1
        (mapSet "scheduledOrder" t A) annotationsPath = .ok obj2 :=
      setNestedLoop_ok_of_found [] [] _ _ _ annotationsPath (by simp [annotationsPath])
        (hA1.trans hmA)
    have hp2 : readParallelism jobKind obj2 = .error c := by
      rw [readParallelism_after_injection _ _ _ _ _ jobKind h1 h2, hp]
    rw [SchedulingWorkflow_of_reads env st obj _ _ _ _ _ hreads, if_pos hw]
    simp only [scheduleWorkload, hn, State.withCluster, hsetup, hsched, injectAndCreate,
      h1, h2, hp2, Result.after]
    simp
  · intro l a name nspace kind h1 h2 h3 h4 h5
    exact SchedulingWorkflow_of_reads env st obj _ _ _ _ _
      ⟨h1, h2, dropFound_found_or_absent _ _ _ h3, dropFound_found_or_absent _ _ _ h4,
        dropFound_found_or_absent _ _ _ h5⟩
  · intro l a name nspace h1 h2 h3 h4 h5 hnw
    have hreads : metadataReads obj l a name nspace "" :=
      ⟨h1, h2, h3, h4, by rw [h5]; rfl⟩
    rw [SchedulingWorkflow_of_reads env st obj _ _ _ _ _ hreads]
    simp only [hnw, Bool.false_eq_true, if_false]
    split <;> rfl
  · intro hkind habsent submitted pred hcall
    obtain ⟨p, hp, hpred⟩ := SchedulingWorkflow_predicate env st obj submitted pred hcall
    have hk : kindOf obj = jobKind := by simp [kindOf, hkind]
    rw [hk] at hp hpred
    have h0 : readParallelism jobKind obj = .ok 0 := by
      simp [readParallelism, habsent, Nested.dropFound]
    rw [h0] at hp
    cases hp
    exact hpred

/-- C9 as amended, at a ConfigMap whose name is a number (rejected with the
name error, nothing called), at a Job whose parallelism is a string (never
created, "failed to get completions of job" after the scheduler calls) and at
a Job without parallelism (its predicate captures 0). -/
theorem C9_witness_unreadable_name_and_parallelism :
    ((∃ e, (SchedulingWorkflow demoEnv (initialState []) numberedConfigMap).outcome
        = .error e) ∧
      (SchedulingWorkflow demoEnv (initialState []) numberedConfigMap).calls = [] ∧
      (SchedulingWorkflow demoEnv (initialState []) numberedConfigMap).state
        = initialState [] ∧
      (SchedulingWorkflow demoEnv (initialState []) numberedConfigMap).obj
        = numberedConfigMap) ∧
    (SchedulingWorkflow demoEnv (initialState []) numberedConfigMap).outcome =
      .error (wrap (.accessor ["metadata", "name"] "string")
        "failed to get the name of resource") ∧
    ((SchedulingWorkflow demoEnv (initialState []) batchJobStringParallelism).outcome
        ≠ .success ∧
      (SchedulingWorkflow demoEnv (initialState []) batchJobStringParallelism).calls.any
        Event.isCreate = false) ∧
    ((SchedulingWorkflow demoEnv (initialState []) batchJobStringParallelism).outcome =
        .error (wrap (.accessor ["spec", "parallelism"] "int64")
          "failed to get completions of job") ∧
      (SchedulingWorkflow demoEnv (initialState []) batchJobStringParallelism).calls =
        [.newScheduler ⟨some [("note", "keep")], some [("workload-replicas", "1")],
          "default", []⟩, .setupConfig, .schedule 1]) ∧
    (∃ submitted pred,
      Event.utilCreate submitted pred ∈
        (SchedulingWorkflow demoEnv (initialState []) batchJob).calls ∧
      pred = readinessPredicate jobKind 0) :=
  have h := C9_unreadable_fields_are_fatal_and_absent_fields_read_as_zero demoEnv
    (initialState [])
  have hcall : Event.utilCreate _ (readinessPredicate jobKind 0) ∈
      (SchedulingWorkflow demoEnv (initialState []) batchJob).calls :=
    List.Mem.tail _ (List.Mem.tail _ (List.Mem.tail _ (List.Mem.head _)))
  ⟨(h numberedConfigMap).1 ["metadata", "name"] (.accessor ["metadata", "name"] "string")
      (List.Mem.head _) rfl,
   (h numberedConfigMap).2.1 none none (.accessor ["metadata", "name"] "string") rfl rfl rfl,
   (h batchJobStringParallelism).2.2.2.2.1 (some [("workload-replicas", "1")])
      (some [("note", "keep")]) "batch" "default"
      (.accessor ["spec", "parallelism"] "int64") ⟨rfl, rfl, rfl, rfl, rfl⟩ rfl rfl,
   (h batchJobStringParallelism).2.2.2.2.2.1 [("workload-replicas", "1")]
      [("note", "keep")] "batch" "default"
      (.accessor ["spec", "parallelism"] "int64") 1 "order:0,1"
      ⟨rfl, rfl, rfl, rfl, rfl⟩ rfl rfl rfl rfl rfl,
   ⟨_, _, hcall, (h batchJob).2.2.2.2.2.2.2.2 rfl rfl _ _ hcall⟩⟩

end V6d
